import Mathlib

/-!
# Thermal-Craft: verification of the thermal-hydraulic simulation engine

Shallow embedding of the core of the Thermal-Craft repository:

* `src/src/models/PPipe.ts` — geometry kernel and hydraulic analyzer
  (segment length, circuit length, Reynolds number, Swamee-Jain friction
  factor, Darcy-Weisbach pressure loss, critical-circuit test);
* `src/src/parsers/LFloorParser.ts` — the cost collaborator
  (`calculateBudget` over the 2025 material price table);
* the hydraulic solver (`generateSerpentineLayout`,
  `calculateRequiredFlowRate`, `estimateHeatOutput`,
  `solveHydraulicCircuit`, `solveKitchenPrototype`);
* `src/js/heat-simulation.js` — the 2-D finite-difference heat grid
  simulator (`step`, `runToSteadyState`, `getMaxChange`,
  `getAverageTemp`).

JavaScript floating-point numbers are modelled as real numbers for the
geometry/hydraulics (which use `sqrt`, `asin`, `log10` and fractional
powers) and as rational numbers for the heat grid simulator (which only
uses field arithmetic, so every run is exact and decidable).  The
unbounded `while` loop of the serpentine generator is modelled with an
explicit fuel parameter: `none` means the loop has not finished within
the given fuel, and divergence is the statement that every fuel amount
returns `none`.
-/

namespace ThermalCraft

/-! ## Data model (PPipe.ts) -/

structure Point2D where
  x : ℝ
  y : ℝ

/-- A pipe segment; `end_` renders the source field `end` (a Lean keyword).
`control_points` and `bend_radius` are optional exactly as in the source;
the JavaScript truthiness test `if (segment.bend_radius)` is rendered as
`bend_radius.getD 0 ≠ 0` (absent and `0` are both falsy). -/
structure PipeSegment where
  id : ℕ
  start : Point2D
  end_ : Point2D
  diameter : ℝ
  is_curved : Bool
  control_points : Option (List Point2D)
  bend_radius : Option ℝ

structure HeatingCircuit where
  id : String
  room_id : String
  segments : List PipeSegment
  flow_rate : ℝ
  supply_temperature : ℝ
  return_temperature : ℝ

namespace HYDRAULIC_CONSTANTS

def WATER_DENSITY : ℝ := 998.2

def WATER_VISCOSITY : ℝ := 0.001002

def PIPE_ROUGHNESS : ℝ := 0.0000015

def CRITICAL_PRESSURE_LOSS : ℝ := 300

end HYDRAULIC_CONSTANTS

/-- Euclidean distance, written as in the source: `sqrt (dx*dx + dy*dy)`. -/
noncomputable def segDist (a b : Point2D) : ℝ :=
  Real.sqrt ((b.x - a.x) * (b.x - a.x) + (b.y - a.y) * (b.y - a.y))

/-- Polyline length along `prev → control points → end`, the spline branch
of `calculateSegmentLength`. -/
noncomputable def polylineLength : Point2D → List Point2D → Point2D → ℝ
  | prev, [], e => segDist prev e
  | prev, c :: cs, e => segDist prev c + polylineLength c cs e

open Classical in
/-- `calculateSegmentLength` from PPipe.ts.  Branches: straight segment;
curved with truthy `bend_radius` (circular-arc formula with the ratio
clamped to [-1, 1]); curved with nonempty `control_points` (polyline
approximation); fallback straight-line distance. -/
noncomputable def calculateSegmentLength (segment : PipeSegment) : ℝ :=
  if segment.is_curved = false then
    segDist segment.start segment.end_
  else if segment.bend_radius.getD 0 ≠ 0 then
    let chordLength := segDist segment.start segment.end_
    let radius := segment.bend_radius.getD 0
    let ratio := chordLength / (2 * radius)
    let clampedRatio := max (-1) (min 1 ratio)
    let angle := 2 * Real.arcsin clampedRatio
    radius * angle
  else if segment.control_points.getD [] ≠ [] then
    polylineLength segment.start (segment.control_points.getD []) segment.end_
  else
    segDist segment.start segment.end_

noncomputable def calculateCircuitLength (circuit : HeatingCircuit) : ℝ :=
  circuit.segments.foldl (fun total segment => total + calculateSegmentLength segment) 0

noncomputable def calculateReynolds (velocity diameter : ℝ) : ℝ :=
  HYDRAULIC_CONSTANTS.WATER_DENSITY * velocity * diameter /
    HYDRAULIC_CONSTANTS.WATER_VISCOSITY

noncomputable def calculateFrictionFactor (reynolds diameter : ℝ) : ℝ :=
  let roughness := HYDRAULIC_CONSTANTS.PIPE_ROUGHNESS
  let term1 := roughness / (3.7 * diameter)
  let term2 := 5.74 / reynolds ^ (0.9 : ℝ)
  0.25 / Real.logb 10 (term1 + term2) ^ (2 : ℕ)

/-- `calculatePressureLoss` from PPipe.ts: Darcy-Weisbach with the first
segment's diameter as representative; `0` for an empty circuit. -/
noncomputable def calculatePressureLoss (circuit : HeatingCircuit) : ℝ :=
  let length := calculateCircuitLength circuit
  let flowRateCubicMetersPerSec := circuit.flow_rate / 3600 / 1000
  match circuit.segments with
  | [] => 0
  | seg0 :: _ =>
    let diameter := seg0.diameter
    let area := Real.pi * (diameter / 2) ^ (2 : ℕ)
    let velocity := flowRateCubicMetersPerSec / area
    let reynolds := calculateReynolds velocity diameter
    let frictionFactor := calculateFrictionFactor reynolds diameter
    let pressureLossPa :=
      frictionFactor * (length / diameter) *
        (HYDRAULIC_CONSTANTS.WATER_DENSITY * velocity ^ (2 : ℕ) / 2)
    pressureLossPa * 0.01

noncomputable def isCriticalCircuit (circuit : HeatingCircuit) : Prop :=
  calculatePressureLoss circuit > HYDRAULIC_CONSTANTS.CRITICAL_PRESSURE_LOSS

/-! ## Cost collaborator (LFloorParser.ts) -/

structure BudgetItem where
  material_id : String
  quantity : ℝ
  unit_price : ℝ
  total_price : ℝ

structure Budget where
  total_budget : ℝ
  items : List BudgetItem
  total_spent : ℝ
  remaining_budget : ℝ

def MATERIAL_COSTS_2025 : List (String × ℝ) :=
  [("pipe_16mm", 4.5), ("pipe_20mm", 5.8), ("eps_plate_30mm", 8.5),
   ("eps_plate_50mm", 12.0), ("alu_sheet", 18.0), ("window_single", 150.0),
   ("window_double", 280.0), ("window_triple", 450.0), ("manifold", 350.0),
   ("pump", 420.0), ("thermostat", 85.0)]

def getMaterialPrice (materialId : String) : Option ℝ :=
  (MATERIAL_COSTS_2025.find? (fun m => m.1 = materialId)).map (fun m => m.2)

def calculateBudget (totalBudget : ℝ) (items : List (String × ℝ)) : Budget :=
  let folded := items.foldl
    (fun acc item =>
      match getMaterialPrice item.1 with
      | some price =>
        (acc.1 ++ [BudgetItem.mk item.1 item.2 price (price * item.2)],
         acc.2 + price * item.2)
      | none => acc)
    (([] : List BudgetItem), (0 : ℝ))
  { total_budget := totalBudget
    items := folded.1
    total_spent := folded.2
    remaining_budget := totalBudget - folded.2 }

/-! ## Hydraulic solver -/

namespace HEAT_TRANSFER_CONSTANTS

def WATER_SPECIFIC_HEAT : ℝ := 4186

def TYPICAL_TEMP_DROP : ℝ := 5

def BASE_HEAT_OUTPUT_PER_METER : ℝ := 10

def HEAT_OUTPUT_TEMP_COEFFICIENT : ℝ := 2

def STANDARD_ROOM_TEMP : ℝ := 21

end HEAT_TRANSFER_CONSTANTS

structure CircuitDesignParams where
  room_area : ℝ
  pipe_spacing : ℝ
  room_width : ℝ
  room_length : ℝ
  pipe_diameter : ℝ
  supply_temperature : ℝ
  return_temperature : ℝ
  heat_output_required : ℝ

structure CircuitSolution where
  circuit : HeatingCircuit
  total_length : ℝ
  pressure_loss : ℝ
  is_critical : Prop
  budget : Budget
  estimated_heat_output : ℝ
  flow_rate : ℝ

/-- The straight run emitted by one iteration of the serpentine loop:
it spans the full width at height `currentY`, from `x = 0` rightwards
when `dir` is set, else from `x = width` leftwards. -/
noncomputable def straightSeg (p : CircuitDesignParams) (idx : ℕ) (currentY : ℝ)
    (dir : Bool) : PipeSegment :=
  { id := idx, start := { x := if dir then 0 else p.room_width, y := currentY },
    end_ := { x := if dir then p.room_width else 0, y := currentY },
    diameter := p.pipe_diameter, is_curved := false,
    control_points := none, bend_radius := none }

/-- The 180° turn emitted when another row follows: a vertical arc at
the row's end `x`, climbing one spacing, with bend radius `spacing/2`. -/
noncomputable def turnSeg (p : CircuitDesignParams) (idx : ℕ) (currentY : ℝ)
    (dir : Bool) : PipeSegment :=
  { id := idx, start := { x := if dir then p.room_width else 0, y := currentY },
    end_ := { x := if dir then p.room_width else 0, y := currentY + p.pipe_spacing },
    diameter := p.pipe_diameter, is_curved := true,
    control_points := none, bend_radius := some (p.pipe_spacing / 2) }

open Classical in
/-- The body of the `while (currentY < length)` loop of
`generateSerpentineLayout`, with an explicit fuel parameter standing for
the number of loop iterations still allowed: `none` means the loop did
not finish within `fuel` iterations (for non-positive spacing the source
loop never finishes, and every fuel amount returns `none`).  `idx` is the
running `segmentId` counter, `dir` the direction flag (`true` = rightwards). -/
noncomputable def serpentineAux (p : CircuitDesignParams) :
    ℕ → ℕ → ℝ → Bool → Option (List PipeSegment)
  | 0, _idx, currentY, _dir =>
    if currentY < p.room_length then none else some []
  | Nat.succ fuel', idx, currentY, dir =>
    if currentY < p.room_length then
      if currentY + p.pipe_spacing < p.room_length then
        (serpentineAux p fuel' (idx + 2) (currentY + p.pipe_spacing) (!dir)).map
          (fun rest => straightSeg p idx currentY dir ::
            turnSeg p (idx + 1) currentY dir :: rest)
      else
        (serpentineAux p fuel' (idx + 1) (currentY + p.pipe_spacing) (!dir)).map
          (fun rest => straightSeg p idx currentY dir :: rest)
    else some []

/-- Fuel amount that suffices for the loop whenever `pipe_spacing > 0`
(proved below); the source has no fuel, its loop runs unboundedly. -/
noncomputable def serpentineFuel (p : CircuitDesignParams) : ℕ :=
  ⌈p.room_length / p.pipe_spacing⌉₊ + 2

/-- The source loop terminates on the given parameters (some fuel suffices). -/
def serpentineTerminates (p : CircuitDesignParams) : Prop :=
  ∃ fuel segs, serpentineAux p fuel 0 (p.pipe_spacing / 2) true = some segs

noncomputable def generateSerpentineLayout (p : CircuitDesignParams) : List PipeSegment :=
  (serpentineAux p (serpentineFuel p) 0 (p.pipe_spacing / 2) true).getD []

noncomputable def calculateRequiredFlowRate (heatOutput supplyTemp returnTemp : ℝ) : ℝ :=
  let deltaT := supplyTemp - returnTemp
  let massFlowRate := heatOutput / (HEAT_TRANSFER_CONSTANTS.WATER_SPECIFIC_HEAT * deltaT)
  let volumeFlowRate := massFlowRate / HYDRAULIC_CONSTANTS.WATER_DENSITY
  volumeFlowRate * 1000 * 3600

noncomputable def estimateHeatOutput (pipeLength supplyTemp roomTemp : ℝ)
    (_pipeSpacing : ℝ) (returnTemp : Option ℝ) : ℝ :=
  let effectiveReturnTemp := returnTemp.getD (supplyTemp - HEAT_TRANSFER_CONSTANTS.TYPICAL_TEMP_DROP)
  let avgTemp := (supplyTemp + effectiveReturnTemp) / 2
  let deltaT := avgTemp - roomTemp
  let q_per_meter := HEAT_TRANSFER_CONSTANTS.BASE_HEAT_OUTPUT_PER_METER +
    deltaT * HEAT_TRANSFER_CONSTANTS.HEAT_OUTPUT_TEMP_COEFFICIENT
  pipeLength * q_per_meter

open Classical in
noncomputable def solveHydraulicCircuit (p : CircuitDesignParams)
    (roomId : String) (totalBudget : ℝ) : CircuitSolution :=
  let flowRate := calculateRequiredFlowRate p.heat_output_required
    p.supply_temperature p.return_temperature
  let segments := generateSerpentineLayout p
  let circuit : HeatingCircuit :=
    { id := String.append ("circuit_") roomId, room_id := roomId,
      segments := segments, flow_rate := flowRate,
      supply_temperature := p.supply_temperature,
      return_temperature := p.return_temperature }
  let totalLength := calculateCircuitLength circuit
  let pressureLoss := calculatePressureLoss circuit
  let isCrit := isCriticalCircuit circuit
  let pipeType : String := if p.pipe_diameter ≥ 0.02 then ("pipe_20mm") else ("pipe_16mm")
  let materialItems : List (String × ℝ) :=
    [(pipeType, totalLength), ("eps_plate_30mm", p.room_area),
     ("alu_sheet", p.room_area), ("manifold", 1), ("thermostat", 1)]
  let budget := calculateBudget totalBudget materialItems
  let estimatedOutput := estimateHeatOutput totalLength p.supply_temperature
    HEAT_TRANSFER_CONSTANTS.STANDARD_ROOM_TEMP p.pipe_spacing none
  { circuit := circuit, total_length := totalLength,
    pressure_loss := pressureLoss, is_critical := isCrit, budget := budget,
    estimated_heat_output := estimatedOutput, flow_rate := flowRate }

def kitchenParams : CircuitDesignParams :=
  { room_area := 13.0, pipe_spacing := 0.125, room_width := 3.5,
    room_length := 3.7, pipe_diameter := 0.016, supply_temperature := 35,
    return_temperature := 30, heat_output_required := 1300 }

noncomputable def solveKitchenPrototype : CircuitSolution :=
  solveHydraulicCircuit kitchenParams ("kitchen") 15000

/-! ## Heat grid simulator (heat-simulation.js), over ℚ (exact field
arithmetic only, so every concrete run is decidable) -/

structure HeatSource where
  row : ℤ
  col : ℤ
  temperature : ℚ
  deriving DecidableEq

structure HeatSimulation where
  width : ℚ
  height : ℚ
  gridSize : ℚ
  cols : ℕ
  rows : ℕ
  temp : List (List ℚ)
  tempNext : List (List ℚ)
  heatSources : List HeatSource
  outsideTemp : ℚ
  deriving DecidableEq

namespace HeatSimulation

/-- Constructor: `ceil(width/gridSize)` columns, `ceil(height/gridSize)`
rows, both buffers filled with the ambient 20 °C, outside temperature
initialised to -10 °C. -/
def init (width height gridSize : ℚ) : HeatSimulation :=
  let cols := (⌈width / gridSize⌉ : ℤ).toNat
  let rows := (⌈height / gridSize⌉ : ℤ).toNat
  { width := width, height := height, gridSize := gridSize,
    cols := cols, rows := rows,
    temp := List.replicate rows (List.replicate cols 20),
    tempNext := List.replicate rows (List.replicate cols 20),
    heatSources := [], outsideTemp := -10 }

/-- Read `g[i][j]`; both loops of the source only read in-range cells. -/
def getT (g : List (List ℚ)) (i j : ℕ) : ℚ :=
  (g.getD i []).getD j 0

/-- Write `g[i][j] := v` (out-of-range writes are no-ops, matching the
guarded uses in the source). -/
def setT (g : List (List ℚ)) (i j : ℕ) (v : ℚ) : List (List ℚ) :=
  g.set i ((g.getD i []).set j v)

def addHeatSource (sim : HeatSimulation) (x y temperature : ℚ) : HeatSimulation :=
  let col := (⌊x / sim.gridSize⌋ : ℤ)
  let row := (⌊y / sim.gridSize⌋ : ℤ)
  if 0 ≤ row ∧ row < sim.rows ∧ 0 ≤ col ∧ col < sim.cols then
    { sim with heatSources := sim.heatSources ++ [{ row := row, col := col, temperature := temperature }] }
  else sim

/-- Pin every registered in-range heat-source cell to its temperature
(the in-place mutation of `this.temp` at the start of `step`). -/
def applySources (sim : HeatSimulation) (g : List (List ℚ)) : List (List ℚ) :=
  sim.heatSources.foldl
    (fun g s =>
      if 0 ≤ s.row ∧ s.row < (sim.rows : ℤ) ∧ 0 ≤ s.col ∧ s.col < (sim.cols : ℤ) then
        setT g s.row.toNat s.col.toNat s.temperature
      else g)
    g

def applyBoundary (sim : HeatSimulation) (temp : ℚ) : ℚ :=
  let uValue : ℚ := 1.4
  let heatLoss := uValue * (temp - sim.outsideTemp) * 0.01
  temp - heatLoss

/-- One explicit finite-difference step.  The source writes the interior
5-point-stencil update and then the boundary rule into `tempNext` (the
outermost ring and the interior are disjoint and together cover every
cell of the `rows × cols` grid), then swaps the buffers; after the swap
`tempNext` holds the pre-diffusion (source-pinned) grid. -/
def step (sim : HeatSimulation) (deltaTime : ℚ) : HeatSimulation :=
  let alpha : ℚ := 0.0001
  let dx := sim.gridSize
  let r := alpha * deltaTime / (dx * dx)
  let cur := applySources sim sim.temp
  let next :=
    (List.range sim.rows).map (fun i =>
      (List.range sim.cols).map (fun j =>
        if i = 0 ∨ i = sim.rows - 1 ∨ j = 0 ∨ j = sim.cols - 1 then
          applyBoundary sim (getT cur i j)
        else
          getT cur i j +
            r * (getT cur (i - 1) j + getT cur (i + 1) j +
                 getT cur i (j - 1) + getT cur i (j + 1) - 4 * getT cur i j)))
  { sim with temp := next, tempNext := cur }

def getMaxChange (sim : HeatSimulation) : ℚ :=
  (List.range sim.rows).foldl
    (fun m i =>
      (List.range sim.cols).foldl
        (fun m j => max m |getT sim.temp i j - getT sim.tempNext i j|) m)
    0

def getAverageTemp (sim : HeatSimulation) : ℚ :=
  ((List.range sim.rows).foldl
    (fun acc i =>
      (List.range sim.cols).foldl (fun acc j => acc + getT sim.temp i j) acc)
    0) / (sim.rows * sim.cols)

def getTempAt (sim : HeatSimulation) (x y : ℚ) : ℚ :=
  let col := (⌊x / sim.gridSize⌋ : ℤ)
  let row := (⌊y / sim.gridSize⌋ : ℤ)
  if 0 ≤ row ∧ row < sim.rows ∧ 0 ≤ col ∧ col < sim.cols then
    getT sim.temp row.toNat col.toNat
  else 20

/-- The `for (let i = 0; i < maxSteps; i++)` loop of `runToSteadyState`,
instrumented with the number of steps performed and whether it broke out
through the convergence test (the source exposes neither: it returns
nothing and only mutates the grid).  `rem` counts the remaining loop
iterations `maxSteps - i`, so the guard `i < maxSteps` is `rem ≠ 0`;
callers keep `i + rem = maxSteps`. -/
def runAux (maxSteps : ℕ) : ℕ → HeatSimulation → ℕ → HeatSimulation × ℕ × Bool
  | 0, sim, i => (sim, i, false)
  | Nat.succ rem, sim, i =>
    let s := step sim 1
    if i % 100 = 0 ∧ getMaxChange s < 0.01 then (s, i + 1, true)
    else runAux maxSteps rem s (i + 1)

/-- Observable effect of `runToSteadyState`: the final grid state. -/
def runToSteadyState (sim : HeatSimulation) (maxSteps : ℕ) : HeatSimulation :=
  (runAux maxSteps maxSteps sim 0).1

/-- `n` bare `step()` calls (`dt = 1`), for relating `runAux` to plain
stepping. -/
def stepIter (sim : HeatSimulation) : ℕ → HeatSimulation
  | 0 => sim
  | Nat.succ n => step (stepIter sim n) 1

end HeatSimulation

/-! ## Derived definitions used in theorem statements -/

/-- Number of straight (non-curved) segments in a layout. -/
def straightCount (segs : List PipeSegment) : ℕ :=
  (segs.filter (fun s => s.is_curved = false)).length

/-- A one-segment circuit: a single straight metre of pipe of diameter
`d` carrying `q` litres per hour (used for boundary studies of
`calculatePressureLoss`). -/
def oneMetreCircuit (d q : ℝ) : HeatingCircuit :=
  { id := ("c"), room_id := ("r"),
    segments := [{ id := 0, start := { x := 0, y := 0 }, end_ := { x := 1, y := 0 },
                   diameter := d, is_curved := false,
                   control_points := none, bend_radius := none }],
    flow_rate := q, supply_temperature := 35, return_temperature := 30 }

/-- A two-segment variant of `oneMetreCircuit` (two straight metres). -/
def twoMetreCircuit (d q : ℝ) : HeatingCircuit :=
  { id := ("c2"), room_id := ("r"),
    segments := [{ id := 0, start := { x := 0, y := 0 }, end_ := { x := 1, y := 0 },
                   diameter := d, is_curved := false,
                   control_points := none, bend_radius := none },
                 { id := 1, start := { x := 1, y := 0 }, end_ := { x := 2, y := 0 },
                   diameter := d, is_curved := false,
                   control_points := none, bend_radius := none }],
    flow_rate := q, supply_temperature := 35, return_temperature := 30 }

/-- A circuit with no segments at all. -/
def emptyCircuit : HeatingCircuit :=
  { id := ("c0"), room_id := ("r"), segments := [],
    flow_rate := 224, supply_temperature := 35, return_temperature := 30 }

/-- A quarter-turn arc segment used as a concrete witness: chord 1,
bend radius 1/2, so the chord equals the diameter of the bend. -/
noncomputable def witnessArcSegment : PipeSegment :=
  { id := 0, start := { x := 0, y := 0 }, end_ := { x := 0, y := 1 },
    diameter := 0.016, is_curved := true,
    control_points := none, bend_radius := some (1 / 2) }

/-- A segment marked curved but with no bend radius and no control
points, hitting the silent straight-line fallback. -/
def witnessFallbackSegment : PipeSegment :=
  { id := 0, start := { x := 0, y := 0 }, end_ := { x := 3, y := 4 },
    diameter := 0.016, is_curved := true,
    control_points := none, bend_radius := none }

/-- The 3 m × 5 m room at 12.5 cm spacing from the serpentine-generator
test property. -/
def roomParams3x5 : CircuitDesignParams :=
  { room_area := 15, pipe_spacing := 0.125, room_width := 3,
    room_length := 5, pipe_diameter := 0.016, supply_temperature := 35,
    return_temperature := 30, heat_output_required := 1300 }

/-- Degenerate geometry: zero pipe spacing with a positive room length,
on which the source layout loop never terminates. -/
def degenerateParams : CircuitDesignParams :=
  { room_area := 13, pipe_spacing := 0, room_width := 3.5,
    room_length := 1, pipe_diameter := 0.016, supply_temperature := 35,
    return_temperature := 30, heat_output_required := 1300 }

/-- A 3 × 3 heat grid, both buffers uniformly at the ambient 20 °C, no
heat sources, outside temperature equal to the ambient value. -/
def ambientSim : HeatSimulation :=
  { width := 3, height := 3, gridSize := 1, cols := 3, rows := 3,
    temp := List.replicate 3 (List.replicate 3 20),
    tempNext := List.replicate 3 (List.replicate 3 20),
    heatSources := [], outsideTemp := 20 }

/-! ## Numeric helper lemmas

Bounds for `x ^ 0.9` and `logb 10` through integer powers, so that all
transcendental evaluations reduce to rational arithmetic. -/

theorem rpow09_pow_ten (x : ℝ) (hx : 0 ≤ x) :
    (x ^ (0.9 : ℝ)) ^ (10 : ℕ) = x ^ (9 : ℕ) := by
  rw [← Real.rpow_natCast (x ^ (0.9 : ℝ)) 10, ← Real.rpow_mul hx,
    ← Real.rpow_natCast x 9]
  norm_num

theorem rpow09_le (x b : ℝ) (hx : 0 ≤ x) (hb : 0 ≤ b)
    (h : x ^ (9 : ℕ) ≤ b ^ (10 : ℕ)) : x ^ (0.9 : ℝ) ≤ b := by
  refine le_of_pow_le_pow_left (n := 10) (by norm_num) hb ?_
  rw [rpow09_pow_ten x hx]
  exact h

theorem le_rpow09 (x a : ℝ) (hx : 0 ≤ x) (ha : 0 ≤ a)
    (h : a ^ (10 : ℕ) ≤ x ^ (9 : ℕ)) : a ≤ x ^ (0.9 : ℝ) := by
  refine le_of_pow_le_pow_left (n := 10) (by norm_num)
    (Real.rpow_nonneg hx _) ?_
  rw [rpow09_pow_ten x hx]
  exact h

theorem rpow_neg_div_pow (p q : ℕ) (hq : 0 < q) :
    ((10 : ℝ) ^ (-((p : ℝ) / (q : ℝ)))) ^ (q : ℕ) = ((10 : ℝ) ^ (p : ℕ))⁻¹ := by
  rw [← Real.rpow_natCast ((10 : ℝ) ^ (-((p : ℝ) / (q : ℝ)))) q,
    ← Real.rpow_mul (by norm_num : (0:ℝ) ≤ 10)]
  have hq' : ((q : ℝ)) ≠ 0 := Nat.cast_ne_zero.mpr hq.ne'
  rw [show -((p : ℝ) / (q : ℝ)) * (q : ℝ) = -((p : ℕ) : ℝ) by field_simp,
    Real.rpow_neg (by norm_num : (0:ℝ) ≤ 10), Real.rpow_natCast]

theorem logb_lt_neg_div (s : ℝ) (p q : ℕ) (hs : 0 < s) (hq : 0 < q)
    (h : s ^ (q : ℕ) * 10 ^ (p : ℕ) < 1) :
    Real.logb 10 s < -((p : ℝ) / (q : ℝ)) := by
  rw [Real.logb_lt_iff_lt_rpow (by norm_num : (1:ℝ) < 10) hs]
  refine lt_of_pow_lt_pow_left q (Real.rpow_nonneg (by norm_num) _) ?_
  rw [rpow_neg_div_pow p q hq, inv_eq_one_div, lt_div_iff (by positivity)]
  linarith

theorem neg_div_lt_logb (s : ℝ) (p q : ℕ) (hs : 0 < s) (hq : 0 < q)
    (h : 1 < s ^ (q : ℕ) * 10 ^ (p : ℕ)) :
    -((p : ℝ) / (q : ℝ)) < Real.logb 10 s := by
  rw [Real.lt_logb_iff_rpow_lt (by norm_num : (1:ℝ) < 10) hs]
  refine lt_of_pow_lt_pow_left q hs.le ?_
  rw [rpow_neg_div_pow p q hq, inv_eq_one_div, div_lt_iff (by positivity)]
  linarith

theorem two_le_log_ten : (2 : ℝ) ≤ Real.log 10 := by
  rw [Real.le_log_iff_exp_le (by norm_num : (0:ℝ) < 10)]
  have h := Real.exp_one_lt_d9
  have hp := Real.exp_pos 1
  calc Real.exp 2 = Real.exp 1 * Real.exp 1 := by
        rw [← Real.exp_add]; norm_num
    _ ≤ 10 := by nlinarith

theorem logb_ten_le_half_sub_one (s : ℝ) (hs : 1 ≤ s) :
    Real.logb 10 s ≤ (s - 1) / 2 := by
  have h0 : (0:ℝ) < Real.log 10 := lt_of_lt_of_le (by norm_num) two_le_log_ten
  have h1 : Real.log s ≤ s - 1 := Real.log_le_sub_one_of_pos (by linarith)
  have h2 : 0 ≤ Real.log s := Real.log_nonneg hs
  rw [Real.logb, div_le_div_iff h0 (by norm_num : (0:ℝ) < 2)]
  nlinarith [two_le_log_ten]

theorem logb_ten_pos_of_one_lt (s : ℝ) (hs : 1 < s) : 0 < Real.logb 10 s :=
  Real.logb_pos (by norm_num) hs

/-! ## Serpentine layout: loop characterisation -/

theorem foldl_len_acc (segs : List PipeSegment) :
    ∀ c : ℝ, segs.foldl (fun t q => t + calculateSegmentLength q) c =
      c + segs.foldl (fun t q => t + calculateSegmentLength q) 0 := by
  induction segs with
  | nil => intro c; simp
  | cons a l ih =>
    intro c
    simp only [List.foldl_cons]
    rw [ih (c + calculateSegmentLength a), ih (0 + calculateSegmentLength a)]
    ring

theorem segDist_horizontal (x1 x2 y : ℝ) :
    segDist { x := x1, y := y } { x := x2, y := y } = |x2 - x1| := by
  unfold segDist
  rw [show (x2 - x1) * (x2 - x1) + (y - y) * (y - y) = (x2 - x1) ^ 2 by ring]
  exact Real.sqrt_sq_eq_abs _

theorem segDist_vertical (x y1 y2 : ℝ) :
    segDist { x := x, y := y1 } { x := x, y := y2 } = |y2 - y1| := by
  unfold segDist
  rw [show (x - x) * (x - x) + (y2 - y1) * (y2 - y1) = (y2 - y1) ^ 2 by ring]
  exact Real.sqrt_sq_eq_abs _

theorem calculateSegmentLength_straight (seg : PipeSegment)
    (h : seg.is_curved = false) :
    calculateSegmentLength seg = segDist seg.start seg.end_ := by
  unfold calculateSegmentLength
  rw [if_pos h]

/-- Every straight run of the layout has length exactly `room_width`. -/
theorem straightSeg_length (p : CircuitDesignParams) (idx : ℕ) (y : ℝ)
    (dir : Bool) (hw : 0 < p.room_width) :
    calculateSegmentLength (straightSeg p idx y dir) = p.room_width := by
  rw [calculateSegmentLength_straight _ rfl]
  unfold straightSeg
  cases dir
  · simp only [Bool.false_eq_true, if_false]
    rw [segDist_horizontal, show (0:ℝ) - p.room_width = -p.room_width by ring,
      abs_neg, abs_of_pos hw]
  · simp only [if_true]
    rw [segDist_horizontal, sub_zero, abs_of_pos hw]

/-- Every 180° turn of the layout has arc length `spacing·π/2`: the
chord equals the spacing, the clamped ratio is exactly 1 and the central
angle is π. -/
theorem turnSeg_length (p : CircuitDesignParams) (idx : ℕ) (y : ℝ)
    (dir : Bool) (hs : 0 < p.pipe_spacing) :
    calculateSegmentLength (turnSeg p idx y dir) =
      p.pipe_spacing * (Real.pi / 2) := by
  unfold calculateSegmentLength turnSeg
  rw [if_neg (by simp)]
  rw [if_pos (by simpa using by positivity : (some (p.pipe_spacing / 2)).getD 0 ≠ 0)]
  simp only [Option.getD_some]
  rw [segDist_vertical]
  rw [show y + p.pipe_spacing - y = p.pipe_spacing by ring, abs_of_pos hs]
  rw [show p.pipe_spacing / (2 * (p.pipe_spacing / 2)) = 1 by field_simp]
  rw [show min 1 (1:ℝ) = 1 by simp, show max (-1) (1:ℝ) = 1 by norm_num,
    Real.arcsin_one]
  ring

theorem serpentineAux_stop (p : CircuitDesignParams) (fuel idx : ℕ) (y : ℝ)
    (dir : Bool) (hy : ¬ y < p.room_length) :
    serpentineAux p fuel idx y dir = some [] := by
  cases fuel with
  | zero => rw [serpentineAux, if_neg hy]
  | succ n => rw [serpentineAux, if_neg hy]

theorem serpentineAux_turn (p : CircuitDesignParams) (fuel idx : ℕ) (y : ℝ)
    (dir : Bool) (hy : y < p.room_length)
    (hturn : y + p.pipe_spacing < p.room_length) :
    serpentineAux p (fuel + 1) idx y dir =
      (serpentineAux p fuel (idx + 2) (y + p.pipe_spacing) (!dir)).map
        (fun rest => straightSeg p idx y dir :: turnSeg p (idx + 1) y dir :: rest) := by
  rw [serpentineAux, if_pos hy, if_pos hturn]

theorem serpentineAux_lastRow (p : CircuitDesignParams) (fuel idx : ℕ) (y : ℝ)
    (dir : Bool) (hy : y < p.room_length)
    (hturn : ¬ y + p.pipe_spacing < p.room_length) :
    serpentineAux p (fuel + 1) idx y dir =
      (serpentineAux p fuel (idx + 1) (y + p.pipe_spacing) (!dir)).map
        (fun rest => straightSeg p idx y dir :: rest) := by
  rw [serpentineAux, if_pos hy, if_neg hturn]

theorem straightCount_nil : straightCount [] = 0 := rfl

theorem straightCount_cons_straight (a : PipeSegment) (l : List PipeSegment)
    (h : a.is_curved = false) : straightCount (a :: l) = straightCount l + 1 := by
  simp [straightCount, List.filter_cons, h]

theorem straightCount_cons_curved (a : PipeSegment) (l : List PipeSegment)
    (h : a.is_curved = true) : straightCount (a :: l) = straightCount l := by
  simp [straightCount, List.filter_cons, h]

theorem not_lt_ceil_div_zero (p : CircuitDesignParams) (y : ℝ)
    (hs : 0 < p.pipe_spacing) (hy : ¬ y < p.room_length) :
    ⌈(p.room_length - y) / p.pipe_spacing⌉₊ = 0 :=
  Nat.ceil_eq_zero.mpr (div_nonpos_iff.mpr (Or.inr ⟨by linarith [le_of_not_lt hy], hs.le⟩))

/-- Full characterisation of the serpentine loop for positive spacing and
width: with enough fuel it returns `some`, emits `⌈(L-y)/s⌉₊` straight
rows each of length `room_width`, alternating with 180° turns, all with
the requested diameter, and its total length is
`N·w + (N-1)·s·π/2`. -/
theorem serpentineAux_spec (p : CircuitDesignParams)
    (hs : 0 < p.pipe_spacing) (hw : 0 < p.room_width) :
    ∀ (fuel idx : ℕ) (y : ℝ) (dir : Bool),
      (p.room_length - y) / p.pipe_spacing < fuel →
      ∃ segs, serpentineAux p fuel idx y dir = some segs ∧
        straightCount segs = ⌈(p.room_length - y) / p.pipe_spacing⌉₊ ∧
        (∀ seg ∈ segs, seg.diameter = p.pipe_diameter) ∧
        (∀ seg ∈ segs, seg.is_curved = false →
            calculateSegmentLength seg = p.room_width) ∧
        (segs = [] ↔ ⌈(p.room_length - y) / p.pipe_spacing⌉₊ = 0) ∧
        segs.foldl (fun t q => t + calculateSegmentLength q) 0 =
          (⌈(p.room_length - y) / p.pipe_spacing⌉₊ : ℝ) * p.room_width +
          ((⌈(p.room_length - y) / p.pipe_spacing⌉₊ - 1 : ℕ) : ℝ) *
            (p.pipe_spacing * (Real.pi / 2)) := by
  intro fuel
  induction fuel with
  | zero =>
    intro idx y dir hfuel
    by_cases hy : y < p.room_length
    · exfalso
      have : 0 < (p.room_length - y) / p.pipe_spacing :=
        div_pos (by linarith) hs
      simp only [Nat.cast_zero] at hfuel
      linarith
    · refine ⟨[], serpentineAux_stop p 0 idx y dir hy, ?_, ?_, ?_, ?_, ?_⟩
      · rw [straightCount_nil, not_lt_ceil_div_zero p y hs hy]
      · intro seg h; simp at h
      · intro seg h; simp at h
      · simp [not_lt_ceil_div_zero p y hs hy]
      · rw [not_lt_ceil_div_zero p y hs hy]; simp
  | succ n ih =>
    intro idx y dir hfuel
    by_cases hy : y < p.room_length
    · -- one more loop iteration
      have hrec : (p.room_length - (y + p.pipe_spacing)) / p.pipe_spacing < n := by
        have : (p.room_length - (y + p.pipe_spacing)) / p.pipe_spacing =
            (p.room_length - y) / p.pipe_spacing - 1 := by field_simp; ring
        rw [this]
        push_cast at hfuel ⊢
        linarith
      have hceil : ⌈(p.room_length - y) / p.pipe_spacing⌉₊ =
          ⌈(p.room_length - (y + p.pipe_spacing)) / p.pipe_spacing⌉₊ + 1 := by
        have hsplit : (p.room_length - y) / p.pipe_spacing =
            (p.room_length - (y + p.pipe_spacing)) / p.pipe_spacing + 1 := by
          field_simp; ring
        by_cases hpos : 0 ≤ (p.room_length - (y + p.pipe_spacing)) / p.pipe_spacing
        · rw [hsplit, Nat.ceil_add_one hpos]
        · push_neg at hpos
          have h0 : ⌈(p.room_length - (y + p.pipe_spacing)) / p.pipe_spacing⌉₊ = 0 :=
            Nat.ceil_eq_zero.mpr hpos.le
          have h1 : ⌈(p.room_length - y) / p.pipe_spacing⌉₊ = 1 := by
            rw [Nat.ceil_eq_iff one_ne_zero]
            constructor
            · push_cast
              exact div_pos (by linarith) hs
            · rw [hsplit]; push_cast; linarith
          omega
      by_cases hturn : y + p.pipe_spacing < p.room_length
      · -- straight row followed by a 180° turn
        obtain ⟨rest, hrest, hcount, hdiam, hstraight, hnil, hlen⟩ :=
          ih (idx + 2) (y + p.pipe_spacing) (!dir) hrec
        have hN1 : 1 ≤ ⌈(p.room_length - (y + p.pipe_spacing)) / p.pipe_spacing⌉₊ :=
          Nat.ceil_pos.mpr (div_pos (by linarith) hs)
        have hmain : serpentineAux p (n + 1) idx y dir =
            some (straightSeg p idx y dir :: turnSeg p (idx + 1) y dir :: rest) := by
          rw [serpentineAux_turn p n idx y dir hy hturn, hrest, Option.map_some']
        refine ⟨_, hmain, ?_, ?_, ?_, ?_, ?_⟩
        · rw [straightCount_cons_straight _ _ rfl, straightCount_cons_curved _ _ rfl,
            hcount, hceil]
        · intro seg hseg
          simp only [List.mem_cons] at hseg
          rcases hseg with h | h | h
          · rw [h]; rfl
          · rw [h]; rfl
          · exact hdiam seg h
        · intro seg hseg hcurve
          simp only [List.mem_cons] at hseg
          rcases hseg with h | h | h
          · rw [h]; exact straightSeg_length p idx y dir hw
          · exfalso; rw [h] at hcurve; simp [turnSeg] at hcurve
          · exact hstraight seg h hcurve
        · constructor
          · intro h; simp at h
          · intro h; rw [hceil] at h; simp at h
        · simp only [List.foldl_cons]
          rw [foldl_len_acc]
          rw [hlen, straightSeg_length p idx y dir hw,
            turnSeg_length p (idx + 1) y dir hs, hceil, Nat.add_sub_cancel,
            Nat.cast_sub hN1]
          push_cast
          ring
      · -- last straight row, no turn afterwards
        obtain ⟨rest, hrest, hcount, hdiam, hstraight, hnil, hlen⟩ :=
          ih (idx + 1) (y + p.pipe_spacing) (!dir) hrec
        have hN0 : ⌈(p.room_length - (y + p.pipe_spacing)) / p.pipe_spacing⌉₊ = 0 :=
          not_lt_ceil_div_zero p (y + p.pipe_spacing) hs hturn
        have hrestnil : rest = [] := hnil.mpr hN0
        subst hrestnil
        have hmain : serpentineAux p (n + 1) idx y dir =
            some [straightSeg p idx y dir] := by
          rw [serpentineAux_lastRow p n idx y dir hy hturn, hrest, Option.map_some']
        refine ⟨_, hmain, ?_, ?_, ?_, ?_, ?_⟩
        · rw [straightCount_cons_straight _ _ rfl, straightCount_nil, hceil, hN0]
        · intro seg hseg
          simp only [List.mem_cons] at hseg
          rcases hseg with h | h
          · rw [h]; rfl
          · simp at h
        · intro seg hseg hcurve
          simp only [List.mem_cons] at hseg
          rcases hseg with h | h
          · rw [h]; exact straightSeg_length p idx y dir hw
          · simp at h
        · constructor
          · intro h; simp at h
          · intro h; rw [hceil, hN0] at h; simp at h
        · simp only [List.foldl_cons, List.foldl_nil]
          rw [straightSeg_length p idx y dir hw, hceil, hN0]
          norm_num
    · refine ⟨[], serpentineAux_stop p (n + 1) idx y dir hy, ?_, ?_, ?_, ?_, ?_⟩
      · rw [straightCount_nil, not_lt_ceil_div_zero p y hs hy]
      · intro seg h; simp at h
      · intro seg h; simp at h
      · simp [not_lt_ceil_div_zero p y hs hy]
      · rw [not_lt_ceil_div_zero p y hs hy]; simp

/-- The fuel budget `⌈L/s⌉₊ + 2` always covers the loop started at `s/2`. -/
theorem serpentineFuel_sufficient (p : CircuitDesignParams)
    (hs : 0 < p.pipe_spacing) :
    (p.room_length - p.pipe_spacing / 2) / p.pipe_spacing < serpentineFuel p := by
  unfold serpentineFuel
  push_cast
  have hs0 : p.pipe_spacing ≠ 0 := ne_of_gt hs
  have hhalf : p.pipe_spacing / 2 / p.pipe_spacing = 1 / 2 := by
    rw [div_eq_iff hs0]
    ring
  have h1 : (p.room_length - p.pipe_spacing / 2) / p.pipe_spacing =
      p.room_length / p.pipe_spacing - 1 / 2 := by
    rw [sub_div, hhalf]
  rw [h1]
  by_cases h : 0 ≤ p.room_length / p.pipe_spacing
  · have := Nat.le_ceil (p.room_length / p.pipe_spacing)
    linarith
  · push_neg at h
    have : (0 : ℝ) ≤ ⌈p.room_length / p.pipe_spacing⌉₊ := Nat.cast_nonneg _
    linarith

/-- Bookkeeping equalities of `solveHydraulicCircuit` (all definitional). -/
theorem solve_circuit_segments (p : CircuitDesignParams) (roomId : String)
    (totalBudget : ℝ) :
    (solveHydraulicCircuit p roomId totalBudget).circuit.segments =
      generateSerpentineLayout p := rfl

theorem solve_total_length (p : CircuitDesignParams) (roomId : String)
    (totalBudget : ℝ) :
    (solveHydraulicCircuit p roomId totalBudget).total_length =
      calculateCircuitLength (solveHydraulicCircuit p roomId totalBudget).circuit := rfl

theorem solve_pressure_loss (p : CircuitDesignParams) (roomId : String)
    (totalBudget : ℝ) :
    (solveHydraulicCircuit p roomId totalBudget).pressure_loss =
      calculatePressureLoss (solveHydraulicCircuit p roomId totalBudget).circuit := rfl

theorem solve_is_critical (p : CircuitDesignParams) (roomId : String)
    (totalBudget : ℝ) :
    (solveHydraulicCircuit p roomId totalBudget).is_critical =
      isCriticalCircuit (solveHydraulicCircuit p roomId totalBudget).circuit := rfl

theorem solve_flow_rate_eq (p : CircuitDesignParams) (roomId : String)
    (totalBudget : ℝ) :
    (solveHydraulicCircuit p roomId totalBudget).circuit.flow_rate =
      calculateRequiredFlowRate p.heat_output_required p.supply_temperature
        p.return_temperature := rfl

/-- Termination of the serpentine loop needs only positive spacing. -/
theorem serpentineAux_isSome (p : CircuitDesignParams)
    (hs : 0 < p.pipe_spacing) :
    ∀ (fuel idx : ℕ) (y : ℝ) (dir : Bool),
      (p.room_length - y) / p.pipe_spacing < fuel →
      ∃ segs, serpentineAux p fuel idx y dir = some segs := by
  intro fuel
  induction fuel with
  | zero =>
    intro idx y dir hfuel
    by_cases hy : y < p.room_length
    · exfalso
      have : 0 < (p.room_length - y) / p.pipe_spacing := div_pos (by linarith) hs
      simp only [Nat.cast_zero] at hfuel
      linarith
    · exact ⟨[], serpentineAux_stop p 0 idx y dir hy⟩
  | succ n ih =>
    intro idx y dir hfuel
    by_cases hy : y < p.room_length
    · have hrec : (p.room_length - (y + p.pipe_spacing)) / p.pipe_spacing < n := by
        have : (p.room_length - (y + p.pipe_spacing)) / p.pipe_spacing =
            (p.room_length - y) / p.pipe_spacing - 1 := by
          field_simp
          ring
        rw [this]
        push_cast at hfuel ⊢
        linarith
      by_cases hturn : y + p.pipe_spacing < p.room_length
      · obtain ⟨rest, hrest⟩ := ih (idx + 2) (y + p.pipe_spacing) (!dir) hrec
        exact ⟨_, by rw [serpentineAux_turn p n idx y dir hy hturn, hrest,
          Option.map_some']⟩
      · obtain ⟨rest, hrest⟩ := ih (idx + 1) (y + p.pipe_spacing) (!dir) hrec
        exact ⟨_, by rw [serpentineAux_lastRow p n idx y dir hy hturn, hrest,
          Option.map_some']⟩
    · exact ⟨[], serpentineAux_stop p (n + 1) idx y dir hy⟩

/-- The layout of a positive-spacing, positive-width room, via
`serpentineAux_spec` at the fuel bound used by `generateSerpentineLayout`. -/
theorem generateSerpentineLayout_spec (p : CircuitDesignParams)
    (hs : 0 < p.pipe_spacing) (hw : 0 < p.room_width) :
    ∃ segs, generateSerpentineLayout p = segs ∧
      straightCount segs =
        ⌈(p.room_length - p.pipe_spacing / 2) / p.pipe_spacing⌉₊ ∧
      (∀ seg ∈ segs, seg.diameter = p.pipe_diameter) ∧
      (∀ seg ∈ segs, seg.is_curved = false →
          calculateSegmentLength seg = p.room_width) ∧
      (segs = [] ↔ ⌈(p.room_length - p.pipe_spacing / 2) / p.pipe_spacing⌉₊ = 0) ∧
      segs.foldl (fun t q => t + calculateSegmentLength q) 0 =
        (⌈(p.room_length - p.pipe_spacing / 2) / p.pipe_spacing⌉₊ : ℝ) * p.room_width +
        ((⌈(p.room_length - p.pipe_spacing / 2) / p.pipe_spacing⌉₊ - 1 : ℕ) : ℝ) *
          (p.pipe_spacing * (Real.pi / 2)) := by
  obtain ⟨segs, hsegs, h1, h2, h3, h4, h5⟩ :=
    serpentineAux_spec p hs hw (serpentineFuel p) 0 (p.pipe_spacing / 2) true
      (serpentineFuel_sufficient p hs)
  refine ⟨segs, ?_, h1, h2, h3, h4, h5⟩
  unfold generateSerpentineLayout
  rw [hsegs]
  rfl

/-! ## Claim C3: arc-length formula for curved segments -/

/-- C3.  For every Arc segment (`is_curved` with `bend_radius r > 0`),
`calculateSegmentLength` returns `r · 2 · asin (clamp (chord/(2r)) [-1,1])`
— the ratio is clamped, so a chord exceeding `2r` is not an error — and
when the chord equals `2r` the length is `π·r`. -/
theorem arc_segment_length_formula (seg : PipeSegment) (r : ℝ)
    (hcurved : seg.is_curved = true) (hr : seg.bend_radius = some r)
    (hrpos : 0 < r) :
    calculateSegmentLength seg =
      r * (2 * Real.arcsin (max (-1) (min 1 (segDist seg.start seg.end_ / (2 * r))))) ∧
    (segDist seg.start seg.end_ = 2 * r →
      calculateSegmentLength seg = Real.pi * r) := by
  have hmain : calculateSegmentLength seg =
      r * (2 * Real.arcsin (max (-1) (min 1 (segDist seg.start seg.end_ / (2 * r))))) := by
    unfold calculateSegmentLength
    rw [if_neg (by simp [hcurved])]
    rw [if_pos (by simp [hr]; exact hrpos.ne')]
    simp [hr]
  refine ⟨hmain, fun hchord => ?_⟩
  rw [hmain, hchord]
  rw [show 2 * r / (2 * r) = 1 by field_simp]
  rw [show max (-1) (min 1 (1:ℝ)) = 1 by norm_num, Real.arcsin_one]
  ring

/-- Witness for C3 at a concrete arc: chord 1 with bend radius 1/2. -/
theorem arc_segment_length_formula_witness :
    calculateSegmentLength witnessArcSegment =
      (1/2) * (2 * Real.arcsin (max (-1) (min 1
        (segDist witnessArcSegment.start witnessArcSegment.end_ / (2 * (1/2)))))) ∧
    (segDist witnessArcSegment.start witnessArcSegment.end_ = 2 * (1/2) →
      calculateSegmentLength witnessArcSegment = Real.pi * (1/2)) :=
  arc_segment_length_formula witnessArcSegment (1/2) rfl rfl (by norm_num)

/-! ## Claim C8: criticality threshold -/

/-- C8.  `isCriticalCircuit` holds exactly when the pressure loss
strictly exceeds 300 mbar; in particular a circuit at exactly 300 mbar is
not critical. -/
theorem critical_iff_pressure_above_300 (circuit : HeatingCircuit) :
    (isCriticalCircuit circuit ↔ 300 < calculatePressureLoss circuit) ∧
    ¬ (calculatePressureLoss circuit = 300 ∧ isCriticalCircuit circuit) := by
  constructor
  · exact Iff.rfl
  · rintro ⟨heq, hcrit⟩
    rw [isCriticalCircuit, heq] at hcrit
    exact lt_irrefl _ hcrit

/-! ## Claim C9: empty circuit -/

/-- C9.  A circuit with no segments has pressure loss exactly 0 (the
early return fires before the first-segment diameter is needed). -/
theorem empty_circuit_pressure_zero (circuit : HeatingCircuit)
    (h : circuit.segments = []) : calculatePressureLoss circuit = 0 := by
  unfold calculatePressureLoss
  rw [h]

/-- Witness for C9. -/
theorem empty_circuit_pressure_zero_witness :
    calculatePressureLoss emptyCircuit = 0 :=
  empty_circuit_pressure_zero emptyCircuit rfl

/-! ## Claim C10: silent straight-line fallback for curved segments -/

/-- C10.  A segment marked curved whose `bend_radius` is absent or zero
(both falsy for the source guard) and whose `control_points` are absent
or empty falls back to the straight-line Euclidean distance. -/
theorem curved_fallback_straight_distance (seg : PipeSegment)
    (hc : seg.is_curved = true)
    (hbr : seg.bend_radius = none ∨ seg.bend_radius = some 0)
    (hcp : seg.control_points = none ∨ seg.control_points = some []) :
    calculateSegmentLength seg = segDist seg.start seg.end_ := by
  unfold calculateSegmentLength
  rw [if_neg (by simp [hc])]
  rw [if_neg (by rcases hbr with h | h <;> simp [h])]
  rw [if_neg (by rcases hcp with h | h <;> simp [h])]

/-- Witness for C10 at a concrete curved segment with no radius and no
control points. -/
theorem curved_fallback_straight_distance_witness :
    calculateSegmentLength witnessFallbackSegment =
      segDist witnessFallbackSegment.start witnessFallbackSegment.end_ :=
  curved_fallback_straight_distance witnessFallbackSegment rfl
    (Or.inl rfl) (Or.inl rfl)

/-! ## Claim C2: termination of the solver -/

theorem serpentine_diverges_aux :
    ∀ (fuel idx : ℕ) (dir : Bool),
      serpentineAux degenerateParams fuel idx 0 dir = none := by
  intro fuel
  induction fuel with
  | zero =>
    intro idx dir
    rw [serpentineAux, if_pos (by norm_num [degenerateParams])]
  | succ n ih =>
    intro idx dir
    have hy : (0:ℝ) < degenerateParams.room_length := by norm_num [degenerateParams]
    have hturn : (0:ℝ) + degenerateParams.pipe_spacing < degenerateParams.room_length := by
      norm_num [degenerateParams]
    rw [serpentineAux_turn degenerateParams n idx 0 dir hy hturn]
    rw [show (0:ℝ) + degenerateParams.pipe_spacing = 0 by norm_num [degenerateParams]]
    rw [ih (idx + 2) (!dir)]
    rfl

/-- C2 counterexample: with `pipe_spacing = 0` and `room_length = 1`
(degenerate geometry explicitly included in the claim) the source layout
loop never terminates — no fuel amount finishes it — so
`solveHydraulicCircuit` does not return. -/
theorem solve_diverges_on_zero_spacing :
    ¬ serpentineTerminates degenerateParams := by
  rintro ⟨fuel, segs, h⟩
  rw [show degenerateParams.pipe_spacing / 2 = 0 by norm_num [degenerateParams]] at h
  rw [serpentine_diverges_aux fuel 0 true] at h
  exact Option.noConfusion h

/-- C2 (amended).  Whenever `pipe_spacing > 0` — or the loop guard fails
at entry, `room_length ≤ spacing/2` — the serpentine loop terminates
within the fuel bound `serpentineFuel`, and the circuit embedded in the
returned `CircuitSolution` is exactly the loop's output; all remaining
fields of the solution are total arithmetic in the model. -/
theorem solve_layout_terminates (p : CircuitDesignParams) (roomId : String)
    (totalBudget : ℝ)
    (h : 0 < p.pipe_spacing ∨ p.room_length ≤ p.pipe_spacing / 2) :
    ∃ segs, serpentineAux p (serpentineFuel p) 0 (p.pipe_spacing / 2) true = some segs ∧
      (solveHydraulicCircuit p roomId totalBudget).circuit.segments = segs := by
  rcases h with hs | hle
  · obtain ⟨segs, hsegs⟩ := serpentineAux_isSome p hs (serpentineFuel p) 0
      (p.pipe_spacing / 2) true (serpentineFuel_sufficient p hs)
    refine ⟨segs, hsegs, ?_⟩
    rw [solve_circuit_segments]
    unfold generateSerpentineLayout
    rw [hsegs]
    rfl
  · have hstop := serpentineAux_stop p (serpentineFuel p) 0 (p.pipe_spacing / 2)
      true (not_lt.mpr hle)
    refine ⟨[], hstop, ?_⟩
    rw [solve_circuit_segments]
    unfold generateSerpentineLayout
    rw [hstop]
    rfl

/-- Witness for C2 (amended) at the kitchen parameters. -/
theorem solve_layout_terminates_witness :
    ∃ segs, serpentineAux kitchenParams (serpentineFuel kitchenParams) 0
        (kitchenParams.pipe_spacing / 2) true = some segs ∧
      (solveHydraulicCircuit kitchenParams ("kitchen") 15000).circuit.segments = segs :=
  solve_layout_terminates kitchenParams ("kitchen") 15000
    (Or.inl (by norm_num [kitchenParams]))

/-! ## Claim C5: serpentine row count and row lengths for a 3 m × 5 m room -/

/-- C5.  For `room_width = 3`, `room_length = 5`, `pipe_spacing = 0.125`
the generator emits exactly `⌈(room_length - spacing/2)/spacing⌉₊ = 40`
straight runs, and every straight run has length exactly `room_width = 3`. -/
theorem serpentine_3x5_rows :
    straightCount (generateSerpentineLayout roomParams3x5) = 40 ∧
    ⌈(roomParams3x5.room_length - roomParams3x5.pipe_spacing / 2) /
        roomParams3x5.pipe_spacing⌉₊ = 40 ∧
    ∀ seg ∈ generateSerpentineLayout roomParams3x5,
      seg.is_curved = false → calculateSegmentLength seg = 3 := by
  have hceil : ⌈(roomParams3x5.room_length - roomParams3x5.pipe_spacing / 2) /
      roomParams3x5.pipe_spacing⌉₊ = 40 := by
    rw [show (roomParams3x5.room_length - roomParams3x5.pipe_spacing / 2) /
        roomParams3x5.pipe_spacing = 39.5 by norm_num [roomParams3x5]]
    rw [Nat.ceil_eq_iff (by norm_num)]
    constructor <;> norm_num
  obtain ⟨segs, hsegs, h1, h2, h3, h4, h5⟩ :=
    generateSerpentineLayout_spec roomParams3x5
      (by norm_num [roomParams3x5]) (by norm_num [roomParams3x5])
  rw [hsegs]
  refine ⟨?_, hceil, ?_⟩
  · rw [h1, hceil]
  · intro seg hseg hstraight
    have := h3 seg hseg hstraight
    rw [this]
    norm_num [roomParams3x5]

/-! ## Claim C6: ambient no-op invariant of the heat grid -/

namespace HeatSimulation

theorem getT_replicate (r c : ℕ) (v : ℚ) (i j : ℕ) (hi : i < r) (hj : j < c) :
    getT (List.replicate r (List.replicate c v)) i j = v := by
  unfold getT
  have h1 : (List.replicate r (List.replicate c v)).getD i [] = List.replicate c v := by
    rw [List.getD_eq_getElem _ _ (by simpa using hi)]
    simp
  rw [h1, List.getD_eq_getElem _ _ (by simpa using hj)]
  simp

/-- With no sources, outside temperature at the ambient 20 °C and both
buffers uniformly 20 °C, one `step` is the identity. -/
theorem map_range_eq_replicate {α : Type} (n : ℕ) (f : ℕ → α) (a : α)
    (h : ∀ i < n, f i = a) : (List.range n).map f = List.replicate n a := by
  induction n with
  | zero => simp
  | succ n ih =>
    rw [List.range_succ, List.map_append, ih (fun i hi => h i (by omega)),
      List.replicate_succ']
    simp [h n (by omega)]

/-- With no sources, outside temperature at the ambient 20 °C and both
buffers uniformly 20 °C, one `step` is the identity. -/
theorem step_ambient (sim : HeatSimulation)
    (hsrc : sim.heatSources = []) (hout : sim.outsideTemp = 20)
    (htemp : sim.temp = List.replicate sim.rows (List.replicate sim.cols 20))
    (hnext : sim.tempNext = List.replicate sim.rows (List.replicate sim.cols 20)) :
    step sim 1 = sim := by
  obtain ⟨wd, ht, gs, cols, rows, temp, tempNext, srcs, out⟩ := sim
  simp only at hsrc hout htemp hnext
  subst hsrc hout htemp hnext
  unfold step applySources
  simp only [List.foldl_nil, HeatSimulation.mk.injEq, and_true, true_and]
  apply map_range_eq_replicate
  intro i hi
  apply map_range_eq_replicate
  intro j hj
  by_cases hb : i = 0 ∨ i = rows - 1 ∨ j = 0 ∨ j = cols - 1
  · rw [if_pos hb, getT_replicate rows cols 20 i j hi hj]
    unfold applyBoundary
    norm_num
  · rw [if_neg hb]
    push_neg at hb
    obtain ⟨hi0, hir, hj0, hjc⟩ := hb
    rw [getT_replicate rows cols 20 i j hi hj,
      getT_replicate rows cols 20 (i - 1) j (by omega) hj,
      getT_replicate rows cols 20 (i + 1) j (by omega) hj,
      getT_replicate rows cols 20 i (j - 1) hi (by omega),
      getT_replicate rows cols 20 i (j + 1) hi (by omega)]
    ring

theorem stepIter_ambient (sim : HeatSimulation)
    (hsrc : sim.heatSources = []) (hout : sim.outsideTemp = 20)
    (htemp : sim.temp = List.replicate sim.rows (List.replicate sim.cols 20))
    (hnext : sim.tempNext = List.replicate sim.rows (List.replicate sim.cols 20)) :
    ∀ n : ℕ, stepIter sim n = sim := by
  intro n
  induction n with
  | zero => rfl
  | succ n ih =>
    show step (stepIter sim n) 1 = sim
    rw [ih, step_ambient sim hsrc hout htemp hnext]

theorem foldl_range_add_const (n : ℕ) (c : ℚ) (f : ℚ → ℕ → ℚ)
    (h : ∀ i < n, ∀ acc : ℚ, f acc i = acc + c) :
    ∀ acc : ℚ, (List.range n).foldl f acc = acc + n * c := by
  induction n with
  | zero => intro acc; simp
  | succ n ih =>
    intro acc
    rw [List.range_succ, List.foldl_append]
    rw [ih (fun i hi => h i (by omega))]
    simp only [List.foldl_cons, List.foldl_nil]
    rw [h n (by omega)]
    push_cast
    ring

theorem getAverageTemp_ambient (sim : HeatSimulation)
    (htemp : sim.temp = List.replicate sim.rows (List.replicate sim.cols 20))
    (hr : 0 < sim.rows) (hc : 0 < sim.cols) :
    getAverageTemp sim = 20 := by
  unfold getAverageTemp
  rw [foldl_range_add_const sim.rows ((sim.cols : ℚ) * 20) _
    (fun i hi acc => foldl_range_add_const sim.cols 20 _
      (fun j hj a => by
        show a + getT sim.temp i j = a + 20
        rw [htemp, getT_replicate sim.rows sim.cols 20 i j hi hj]) acc) 0]
  have hr0 : ((sim.rows : ℚ)) ≠ 0 := Nat.cast_ne_zero.mpr hr.ne'
  have hc0 : ((sim.cols : ℚ)) ≠ 0 := Nat.cast_ne_zero.mpr hc.ne'
  field_simp
  ring

end HeatSimulation

/-- C6.  A simulator with no heat sources whose outside temperature
equals the ambient fill value 20 °C and whose buffers are uniformly at
20 °C is left exactly unchanged by every number of `step()` calls, and
its average temperature stays 20 °C (nonempty grid). -/
theorem ambient_no_source_steady (sim : HeatSimulation) (n : ℕ)
    (hsrc : sim.heatSources = []) (hout : sim.outsideTemp = 20)
    (htemp : sim.temp = List.replicate sim.rows (List.replicate sim.cols 20))
    (hnext : sim.tempNext = List.replicate sim.rows (List.replicate sim.cols 20))
    (hr : 0 < sim.rows) (hc : 0 < sim.cols) :
    HeatSimulation.stepIter sim n = sim ∧
    HeatSimulation.getAverageTemp (HeatSimulation.stepIter sim n) = 20 := by
  have hid := HeatSimulation.stepIter_ambient sim hsrc hout htemp hnext n
  refine ⟨hid, ?_⟩
  rw [hid]
  exact HeatSimulation.getAverageTemp_ambient sim htemp hr hc

/-- Witness for C6 at the concrete 3 × 3 ambient grid after 5 steps. -/
theorem ambient_no_source_steady_witness :
    HeatSimulation.stepIter ambientSim 5 = ambientSim ∧
    HeatSimulation.getAverageTemp (HeatSimulation.stepIter ambientSim 5) = 20 :=
  ambient_no_source_steady ambientSim 5 rfl rfl rfl rfl (by norm_num [ambientSim])
    (by norm_num [ambientSim])

/-! ## Claim C4: behaviour of the runToSteadyState loop -/

namespace HeatSimulation

theorem runAux_zero (maxSteps : ℕ) (sim : HeatSimulation) (i : ℕ) :
    runAux maxSteps 0 sim i = (sim, i, false) := rfl

theorem runAux_succ (maxSteps rem : ℕ) (sim : HeatSimulation) (i : ℕ) :
    runAux maxSteps (rem + 1) sim i =
      if i % 100 = 0 ∧ getMaxChange (step sim 1) < 0.01 then
        (step sim 1, i + 1, true)
      else runAux maxSteps rem (step sim 1) (i + 1) := rfl

theorem stepIter_shift (sim : HeatSimulation) :
    ∀ m : ℕ, stepIter (step sim 1) m = stepIter sim (m + 1) := by
  intro m
  induction m with
  | zero => rfl
  | succ m ih =>
    show step (stepIter (step sim 1) m) 1 = step (stepIter sim (m + 1)) 1
    rw [ih]

theorem foldl_range_fix (n : ℕ) (f : ℚ → ℕ → ℚ)
    (h : ∀ i < n, ∀ acc : ℚ, 0 ≤ acc → f acc i = acc) :
    ∀ acc : ℚ, 0 ≤ acc → (List.range n).foldl f acc = acc := by
  induction n with
  | zero => intro acc _; simp
  | succ n ih =>
    intro acc hacc
    rw [List.range_succ, List.foldl_append, ih (fun i hi => h i (by omega)) acc hacc]
    simp only [List.foldl_cons, List.foldl_nil]
    exact h n (by omega) acc hacc

/-- When the two buffers coincide, the maximal per-cell change is 0. -/
theorem getMaxChange_self (sim : HeatSimulation) (h : sim.temp = sim.tempNext) :
    getMaxChange sim = 0 := by
  unfold getMaxChange
  rw [h]
  refine foldl_range_fix sim.rows _ ?_ 0 le_rfl
  intro i hi acc hacc
  refine foldl_range_fix sim.cols _ ?_ acc hacc
  intro j hj a ha
  rw [sub_self, abs_zero, max_eq_left ha]

/-- Behaviour of the instrumented loop, relative to a start index `i`
with `i + rem = maxSteps`: the step count stays within `maxSteps`; a
`true` flag means the loop broke at a convergence check (index ≡ 0 mod
100, measured change below 0.01 °C, state = that many plain steps); a
`false` flag means all `maxSteps` steps ran and every convergence check
on the way measured a change of at least 0.01 °C. -/
theorem runAux_spec (maxSteps : ℕ) :
    ∀ (rem i : ℕ) (sim : HeatSimulation), i + rem = maxSteps →
      i ≤ (runAux maxSteps rem sim i).2.1 ∧
      (runAux maxSteps rem sim i).2.1 ≤ maxSteps ∧
      ((runAux maxSteps rem sim i).2.2 = true →
        ((runAux maxSteps rem sim i).2.1 - 1) % 100 = 0 ∧
        getMaxChange (runAux maxSteps rem sim i).1 < 0.01 ∧
        (runAux maxSteps rem sim i).1 =
          stepIter sim ((runAux maxSteps rem sim i).2.1 - i)) ∧
      ((runAux maxSteps rem sim i).2.2 = false →
        (runAux maxSteps rem sim i).2.1 = maxSteps ∧
        (runAux maxSteps rem sim i).1 = stepIter sim (maxSteps - i) ∧
        ∀ j, i ≤ j → j < maxSteps → j % 100 = 0 →
          ¬ getMaxChange (stepIter sim (j + 1 - i)) < 0.01) := by
  intro rem
  induction rem with
  | zero =>
    intro i sim hk
    rw [runAux_zero]
    refine ⟨le_refl i, by show i ≤ maxSteps; omega, ?_, ?_⟩
    · intro h; simp at h
    · intro _
      refine ⟨by show i = maxSteps; omega, ?_, ?_⟩
      · show sim = stepIter sim (maxSteps - i)
        rw [show maxSteps - i = 0 by omega]
        rfl
      · intro j hij hjm hj100
        exact absurd hjm (by omega)
  | succ rem ih =>
    intro i sim hk
    rw [runAux_succ]
    by_cases hc : i % 100 = 0 ∧ getMaxChange (step sim 1) < 0.01
    · rw [if_pos hc]
      refine ⟨by show i ≤ i + 1; omega, by show i + 1 ≤ maxSteps; omega, ?_, ?_⟩
      · intro _
        refine ⟨by simpa using hc.1, hc.2, ?_⟩
        show step sim 1 = stepIter sim (i + 1 - i)
        rw [show i + 1 - i = 1 by omega]
        rfl
      · intro h; simp at h
    · rw [if_neg hc]
      obtain ⟨h1, h2, h3, h4⟩ := ih (i + 1) (step sim 1) (by omega)
      refine ⟨by omega, h2, ?_, ?_⟩
      · intro ht
        obtain ⟨ha, hb, hcc⟩ := h3 ht
        refine ⟨ha, hb, ?_⟩
        rw [hcc, stepIter_shift]
        congr 1
        omega
      · intro hf
        obtain ⟨ha, hb, hcc⟩ := h4 hf
        refine ⟨ha, ?_, ?_⟩
        · rw [hb, stepIter_shift]
          congr 1
          omega
        · intro j hij hjm hj100
          by_cases hji : j = i
          · subst hji
            rw [show j + 1 - j = 1 by omega]
            intro habs
            exact hc ⟨hj100, by simpa using habs⟩
          · have hthis := hcc j (by omega) hjm hj100
            rw [stepIter_shift] at hthis
            rw [show j + 1 - i = j + 1 - (i + 1) + 1 by omega]
            exact hthis

end HeatSimulation

/-- C4 (amended).  `runToSteadyState` performs at most `max_steps` steps;
the convergence test runs exactly at step indices ≡ 0 (mod 100), so the
loop breaks early exactly when such a check measures a maximal per-cell
change (current grid vs the pre-step snapshot kept in the swapped-out
buffer) below 0.01 °C, and otherwise all `max_steps` steps run.  The
source routine, however, returns nothing — only the mutated grid is
observable — so the Converged and Exhausted termination modes of the
instrumented model are not distinguishable by the caller (see the
accompanying counterexample). -/
theorem run_to_steady_state_spec (sim : HeatSimulation) (maxSteps : ℕ) :
    HeatSimulation.runToSteadyState sim maxSteps =
      (HeatSimulation.runAux maxSteps maxSteps sim 0).1 ∧
    (HeatSimulation.runAux maxSteps maxSteps sim 0).2.1 ≤ maxSteps ∧
    ((HeatSimulation.runAux maxSteps maxSteps sim 0).2.2 = true →
      ((HeatSimulation.runAux maxSteps maxSteps sim 0).2.1 - 1) % 100 = 0 ∧
      HeatSimulation.getMaxChange (HeatSimulation.runAux maxSteps maxSteps sim 0).1 < 0.01 ∧
      (HeatSimulation.runAux maxSteps maxSteps sim 0).1 =
        HeatSimulation.stepIter sim (HeatSimulation.runAux maxSteps maxSteps sim 0).2.1) ∧
    ((HeatSimulation.runAux maxSteps maxSteps sim 0).2.2 = false →
      (HeatSimulation.runAux maxSteps maxSteps sim 0).2.1 = maxSteps ∧
      (HeatSimulation.runAux maxSteps maxSteps sim 0).1 =
        HeatSimulation.stepIter sim maxSteps ∧
      ∀ j, j < maxSteps → j % 100 = 0 →
        ¬ HeatSimulation.getMaxChange (HeatSimulation.stepIter sim (j + 1)) < 0.01) := by
  obtain ⟨h1, h2, h3, h4⟩ :=
    HeatSimulation.runAux_spec maxSteps maxSteps 0 sim (by omega)
  refine ⟨rfl, h2, ?_, ?_⟩
  · intro ht
    obtain ⟨ha, hb, hcc⟩ := h3 ht
    exact ⟨ha, hb, by simpa using hcc⟩
  · intro hf
    obtain ⟨ha, hb, hcc⟩ := h4 hf
    refine ⟨ha, by simpa using hb, ?_⟩
    intro j hj hj100
    have hthis := hcc j (by omega) hj hj100
    simpa using hthis

/-- C4 counterexample to the distinguishability part of the claim: on
the ambient 3 × 3 grid, `runToSteadyState` with `max_steps = 1`
converges at the first check while with `max_steps = 0` it exhausts the
budget without ever converging, yet both calls return identical grids —
the source exposes no termination-mode signal, so a caller cannot tell
Converged from Exhausted. -/
theorem run_termination_mode_not_observable :
    HeatSimulation.runToSteadyState ambientSim 1 =
      HeatSimulation.runToSteadyState ambientSim 0 ∧
    (HeatSimulation.runAux 1 1 ambientSim 0).2.2 = true ∧
    (HeatSimulation.runAux 0 0 ambientSim 0).2.2 = false := by
  have hstep : HeatSimulation.step ambientSim 1 = ambientSim :=
    HeatSimulation.step_ambient ambientSim rfl rfl rfl rfl
  have hmc : HeatSimulation.getMaxChange ambientSim = 0 :=
    HeatSimulation.getMaxChange_self ambientSim rfl
  have hcond : 0 % 100 = 0 ∧
      HeatSimulation.getMaxChange (HeatSimulation.step ambientSim 1) < 0.01 := by
    refine ⟨rfl, ?_⟩
    rw [hstep, hmc]
    norm_num
  have hrun1 : HeatSimulation.runAux 1 1 ambientSim 0 =
      (HeatSimulation.step ambientSim 1, 1, true) := by
    rw [HeatSimulation.runAux_succ, if_pos hcond]
  refine ⟨?_, ?_, rfl⟩
  · show (HeatSimulation.runAux 1 1 ambientSim 0).1 =
      (HeatSimulation.runAux 0 0 ambientSim 0).1
    rw [hrun1, HeatSimulation.runAux_zero, hstep]
  · rw [hrun1]

/-! ## Claim C1: the kitchen prototype -/

theorem calculatePressureLoss_cons (c : HeatingCircuit) (s0 : PipeSegment)
    (rest : List PipeSegment) (h : c.segments = s0 :: rest) :
    calculatePressureLoss c =
      calculateFrictionFactor
          (calculateReynolds
            (c.flow_rate / 3600 / 1000 / (Real.pi * (s0.diameter / 2) ^ (2 : ℕ)))
            s0.diameter)
          s0.diameter *
        (calculateCircuitLength c / s0.diameter) *
        (HYDRAULIC_CONSTANTS.WATER_DENSITY *
          (c.flow_rate / 3600 / 1000 / (Real.pi * (s0.diameter / 2) ^ (2 : ℕ))) ^ (2 : ℕ) / 2) *
        0.01 := by
  unfold calculatePressureLoss
  rw [h]

theorem calculateFrictionFactor_eval (Re D : ℝ) :
    calculateFrictionFactor Re D =
      0.25 / Real.logb 10
        (0.0000015 / (3.7 * D) + 5.74 / Re ^ (0.9 : ℝ)) ^ (2 : ℕ) := rfl

theorem calculateReynolds_eval (v D : ℝ) :
    calculateReynolds v D = 998.2 * v * D / 0.001002 := rfl

set_option maxHeartbeats 2000000 in
/-- C1.  The kitchen prototype (13 m², 12.5 cm spacing, 3.5 m × 3.7 m,
16 mm pipe, 35 °C/30 °C, 1300 W) yields a total pipe length within 1 m
of 110.7 m, a pressure loss within 5 mbar of 126 mbar, and a
non-critical circuit. -/
theorem kitchen_prototype_solution :
    |solveKitchenPrototype.total_length - 110.7| ≤ 1 ∧
    |solveKitchenPrototype.pressure_loss - 126| ≤ 5 ∧
    ¬ solveKitchenPrototype.is_critical := by
  have hpil := Real.pi_gt_d6
  have hpih := Real.pi_lt_d6
  have hs : (0:ℝ) < kitchenParams.pipe_spacing := by norm_num [kitchenParams]
  have hw : (0:ℝ) < kitchenParams.room_width := by norm_num [kitchenParams]
  obtain ⟨segs, hsegs, hcount, hdiam, hstraight, hnil, hlen⟩ :=
    generateSerpentineLayout_spec kitchenParams hs hw
  have hN : ⌈(kitchenParams.room_length - kitchenParams.pipe_spacing / 2) /
      kitchenParams.pipe_spacing⌉₊ = 30 := by
    rw [show (kitchenParams.room_length - kitchenParams.pipe_spacing / 2) /
        kitchenParams.pipe_spacing = 29.1 by norm_num [kitchenParams]]
    rw [Nat.ceil_eq_iff (by norm_num)]
    constructor <;> norm_num
  have hsegs_solution : solveKitchenPrototype.circuit.segments = segs := by
    rw [show solveKitchenPrototype.circuit.segments =
      generateSerpentineLayout kitchenParams from rfl, hsegs]
  have hLc : calculateCircuitLength solveKitchenPrototype.circuit =
      105 + 3.625 * (Real.pi / 2) := by
    unfold calculateCircuitLength
    rw [hsegs_solution, hlen, hN]
    norm_num [kitchenParams]
    ring
  have htl : solveKitchenPrototype.total_length = 105 + 3.625 * (Real.pi / 2) := by
    rw [show solveKitchenPrototype.total_length =
      calculateCircuitLength solveKitchenPrototype.circuit from rfl, hLc]
  -- first segment of the generated circuit
  have hne : segs ≠ [] := by
    intro hcontra
    have := hnil.mp hcontra
    rw [hN] at this
    exact absurd this (by norm_num)
  obtain ⟨s0, rest, hsr⟩ := List.exists_cons_of_ne_nil hne
  have hd016 : s0.diameter = 0.016 := by
    have := hdiam s0 (by rw [hsr]; exact List.mem_cons_self _ _)
    rw [this]
    norm_num [kitchenParams]
  have hcseg : solveKitchenPrototype.circuit.segments = s0 :: rest := by
    rw [hsegs_solution, hsr]
  -- flow rate and velocity
  have hflow : solveKitchenPrototype.circuit.flow_rate =
      calculateRequiredFlowRate 1300 35 30 := rfl
  have hF : calculateRequiredFlowRate 1300 35 30 / 3600 / 1000 = 50 / 803551 := by
    unfold calculateRequiredFlowRate HEAT_TRANSFER_CONSTANTS.WATER_SPECIFIC_HEAT
      HYDRAULIC_CONSTANTS.WATER_DENSITY
    norm_num
  have hPeq : solveKitchenPrototype.pressure_loss =
      calculateFrictionFactor
          (calculateReynolds
            ((50 / 803551) / (Real.pi * ((0.016:ℝ) / 2) ^ (2 : ℕ))) 0.016) 0.016 *
        ((105 + 3.625 * (Real.pi / 2)) / 0.016) *
        (HYDRAULIC_CONSTANTS.WATER_DENSITY *
          ((50 / 803551) / (Real.pi * ((0.016:ℝ) / 2) ^ (2 : ℕ))) ^ (2 : ℕ) / 2) *
        0.01 := by
    rw [show solveKitchenPrototype.pressure_loss =
      calculatePressureLoss solveKitchenPrototype.circuit from rfl]
    rw [calculatePressureLoss_cons _ s0 rest hcseg, hd016, hflow, hF, hLc]
  set v : ℝ := (50 / 803551) / (Real.pi * ((0.016:ℝ) / 2) ^ (2 : ℕ)) with hv
  have hApos : (0:ℝ) < Real.pi * ((0.016:ℝ) / 2) ^ (2 : ℕ) := by positivity
  have hFpos : (0:ℝ) < 50 / 803551 := by norm_num
  have hvpos : 0 < v := div_pos hFpos hApos
  have hvlo : (0.3094757:ℝ) ≤ v := by
    have h1 : (0.3094757:ℝ) ≤ (50 / 803551) / (3.141593 * ((0.016:ℝ) / 2) ^ (2 : ℕ)) := by
      norm_num
    refine h1.trans ?_
    rw [hv]
    refine (div_le_div_left hFpos (by positivity) hApos).mpr ?_
    nlinarith only [hpih, hApos]
  have hvhi : v ≤ 0.3094759 := by
    have h1 : (50 / 803551) / (3.141592 * ((0.016:ℝ) / 2) ^ (2 : ℕ)) ≤ (0.3094759:ℝ) := by
      norm_num
    refine le_trans ?_ h1
    rw [hv]
    refine (div_le_div_left hFpos hApos (by positivity)).mpr ?_
    nlinarith only [hpil, hApos]
  set Re : ℝ := calculateReynolds v 0.016 with hRe
  have hReval : Re = 998.2 * v * 0.016 / 0.001002 := calculateReynolds_eval v 0.016
  have hRelo : (4932.828:ℝ) ≤ Re := by
    rw [hReval, le_div_iff (by norm_num : (0:ℝ) < 0.001002)]
    nlinarith only [hvlo]
  have hRehi : Re ≤ 4932.837 := by
    rw [hReval, div_le_iff (by norm_num : (0:ℝ) < 0.001002)]
    nlinarith only [hvhi]
  have hRepos : (0:ℝ) < Re := by linarith only [hRelo]
  have hRe09lo : (2100:ℝ) ≤ Re ^ (0.9 : ℝ) := by
    refine le_rpow09 Re 2100 hRepos.le (by norm_num) ?_
    calc (2100:ℝ) ^ (10:ℕ) ≤ (4932.828:ℝ) ^ (9:ℕ) := by norm_num
      _ ≤ Re ^ (9:ℕ) := pow_le_pow_left (by norm_num) hRelo 9
  have hRe09hi : Re ^ (0.9 : ℝ) ≤ 2115 := by
    refine rpow09_le Re 2115 hRepos.le (by norm_num) ?_
    calc Re ^ (9:ℕ) ≤ (4932.837:ℝ) ^ (9:ℕ) := pow_le_pow_left hRepos.le hRehi 9
      _ ≤ (2115:ℝ) ^ (10:ℕ) := by norm_num
  have hRe09pos : (0:ℝ) < Re ^ (0.9 : ℝ) := by linarith only [hRe09lo]
  set sArg : ℝ := 0.0000015 / (3.7 * (0.016:ℝ)) + 5.74 / Re ^ (0.9 : ℝ) with hsArg
  have hslo : (0.002739:ℝ) ≤ sArg := by
    have h2 : (5.74:ℝ) / 2115 ≤ 5.74 / Re ^ (0.9 : ℝ) :=
      (div_le_div_left (by norm_num) (by norm_num) hRe09pos).mpr hRe09hi
    rw [hsArg]
    have h3 : (0.002739:ℝ) ≤ 0.0000015 / (3.7 * (0.016:ℝ)) + 5.74 / 2115 := by norm_num
    linarith only [h2, h3]
  have hshi : sArg ≤ 0.002759 := by
    have h2 : (5.74:ℝ) / Re ^ (0.9 : ℝ) ≤ 5.74 / 2100 :=
      (div_le_div_left (by norm_num) hRe09pos (by norm_num)).mpr hRe09lo
    rw [hsArg]
    have h3 : (0.0000015:ℝ) / (3.7 * (0.016:ℝ)) + 5.74 / 2100 ≤ 0.002759 := by norm_num
    linarith only [h2, h3]
  have hspos : (0:ℝ) < sArg := lt_of_lt_of_le (by norm_num) hslo
  set g : ℝ := Real.logb 10 sArg with hg
  have hglo : -((18:ℝ) / (7:ℝ)) < g := by
    have hcast : -(((18:ℕ):ℝ) / ((7:ℕ):ℝ)) = -((18:ℝ) / (7:ℝ)) := by norm_num
    rw [hg, ← hcast]
    refine neg_div_lt_logb sArg 18 7 hspos (by norm_num) ?_
    calc (1:ℝ) < (0.002739:ℝ) ^ (7:ℕ) * 10 ^ (18:ℕ) := by norm_num
      _ ≤ sArg ^ (7:ℕ) * 10 ^ (18:ℕ) := by
          have := pow_le_pow_left (by norm_num : (0:ℝ) ≤ 0.002739) hslo 7
          nlinarith only [this]
  have hghi : g < -((23:ℝ) / (9:ℝ)) := by
    have hcast : -(((23:ℕ):ℝ) / ((9:ℕ):ℝ)) = -((23:ℝ) / (9:ℝ)) := by norm_num
    rw [hg, ← hcast]
    refine logb_lt_neg_div sArg 23 9 hspos (by norm_num) ?_
    calc sArg ^ (9:ℕ) * 10 ^ (23:ℕ) ≤ (0.002759:ℝ) ^ (9:ℕ) * 10 ^ (23:ℕ) := by
          have := pow_le_pow_left hspos.le hshi 9
          nlinarith only [this]
      _ < 1 := by norm_num
  have hgneg : g < 0 := by linarith only [hghi]
  have hg2lo : ((23:ℝ) / 9) ^ (2:ℕ) < g ^ (2:ℕ) := by
    nlinarith only [mul_pos (by linarith only [hghi] : (0:ℝ) < -(g + 23 / 9))
      (by linarith only [hghi] : (0:ℝ) < -(g - 23 / 9))]
  have hg2hi : g ^ (2:ℕ) < ((18:ℝ) / 7) ^ (2:ℕ) := by
    nlinarith only [mul_pos (by linarith only [hglo] : (0:ℝ) < 18 / 7 + g)
      (by linarith only [hgneg] : (0:ℝ) < 18 / 7 - g)]
  have hg2pos : (0:ℝ) < g ^ (2:ℕ) := by positivity
  have hfval : calculateFrictionFactor Re 0.016 = 0.25 / g ^ (2:ℕ) := by
    rw [calculateFrictionFactor_eval, hg, hsArg]
  have hflo : (0.0378:ℝ) ≤ 0.25 / g ^ (2:ℕ) := by
    have h1 : (0.0378:ℝ) ≤ 0.25 / (((18:ℝ) / 7) ^ (2:ℕ)) := by norm_num
    refine h1.trans ?_
    exact (div_le_div_left (by norm_num) (by positivity) hg2pos).mpr hg2hi.le
  have hfhi : 0.25 / g ^ (2:ℕ) ≤ 0.0383 := by
    have h1 : (0.25:ℝ) / (((23:ℝ) / 9) ^ (2:ℕ)) ≤ 0.0383 := by norm_num
    refine le_trans ?_ h1
    exact (div_le_div_left (by norm_num) hg2pos (by positivity)).mpr hg2lo.le
  -- assemble the pressure bounds
  have hLlo : (110.694:ℝ) ≤ 105 + 3.625 * (Real.pi / 2) := by linarith only [hpil]
  have hLhi : (105:ℝ) + 3.625 * (Real.pi / 2) ≤ 110.695 := by linarith only [hpih]
  have hP : solveKitchenPrototype.pressure_loss =
      (0.25 / g ^ (2:ℕ)) * ((105 + 3.625 * (Real.pi / 2)) / 0.016) *
        (998.2 * v ^ (2:ℕ) / 2) * 0.01 := by
    rw [hPeq, hfval]
    rfl
  have hv2lo : (0.3094757:ℝ) ^ (2:ℕ) ≤ v ^ (2:ℕ) :=
    pow_le_pow_left (by norm_num) hvlo 2
  have hv2hi : v ^ (2:ℕ) ≤ (0.3094759:ℝ) ^ (2:ℕ) :=
    pow_le_pow_left hvpos.le hvhi 2
  have hPlo : (121:ℝ) ≤ solveKitchenPrototype.pressure_loss := by
    rw [hP]
    have hstep : (0.0378:ℝ) * ((110.694) / 0.016) *
        (998.2 * (0.3094757:ℝ) ^ (2:ℕ) / 2) * 0.01 ≤
        (0.25 / g ^ (2:ℕ)) * ((105 + 3.625 * (Real.pi / 2)) / 0.016) *
          (998.2 * v ^ (2:ℕ) / 2) * 0.01 := by
      gcongr <;> first
        | exact hflo
        | exact hLlo
        | exact hv2lo
    refine le_trans ?_ hstep
    norm_num
  have hPhi : solveKitchenPrototype.pressure_loss ≤ 131 := by
    rw [hP]
    have hstep : (0.25 / g ^ (2:ℕ)) * ((105 + 3.625 * (Real.pi / 2)) / 0.016) *
        (998.2 * v ^ (2:ℕ) / 2) * 0.01 ≤
        (0.0383:ℝ) * ((110.695) / 0.016) *
          (998.2 * (0.3094759:ℝ) ^ (2:ℕ) / 2) * 0.01 := by
      gcongr <;> first
        | exact hfhi
        | exact hLhi
        | exact hv2hi
    refine hstep.trans ?_
    norm_num
  refine ⟨?_, ?_, ?_⟩
  · rw [htl, abs_le]
    constructor <;> linarith only [hpil, hpih]
  · rw [abs_le]
    constructor <;> linarith only [hPlo, hPhi]
  · rw [show solveKitchenPrototype.is_critical =
      isCriticalCircuit solveKitchenPrototype.circuit from rfl]
    unfold isCriticalCircuit HYDRAULIC_CONSTANTS.CRITICAL_PRESSURE_LOSS
    rw [show calculatePressureLoss solveKitchenPrototype.circuit =
      solveKitchenPrototype.pressure_loss from rfl]
    intro habs
    linarith only [hPhi, habs]

/-! ## Claim C7: monotonicity of the pressure loss -/

theorem oneMetreCircuit_length (d q : ℝ) :
    calculateCircuitLength (oneMetreCircuit d q) = 1 := by
  unfold calculateCircuitLength oneMetreCircuit
  simp only [List.foldl_cons, List.foldl_nil]
  rw [calculateSegmentLength_straight _ rfl, segDist_horizontal]
  norm_num

theorem twoMetreCircuit_length (d q : ℝ) :
    calculateCircuitLength (twoMetreCircuit d q) = 2 := by
  unfold calculateCircuitLength twoMetreCircuit
  simp only [List.foldl_cons, List.foldl_nil]
  rw [calculateSegmentLength_straight _ rfl, calculateSegmentLength_straight _ rfl,
    segDist_horizontal, segDist_horizontal]
  norm_num

theorem oneMetre_pressure (d q : ℝ) :
    calculatePressureLoss (oneMetreCircuit d q) =
      calculateFrictionFactor
          (calculateReynolds (q / 3600 / 1000 / (Real.pi * (d / 2) ^ (2 : ℕ))) d) d *
        (1 / d) *
        (HYDRAULIC_CONSTANTS.WATER_DENSITY *
          (q / 3600 / 1000 / (Real.pi * (d / 2) ^ (2 : ℕ))) ^ (2 : ℕ) / 2) *
        0.01 := by
  rw [calculatePressureLoss_cons (oneMetreCircuit d q) _ _ rfl, oneMetreCircuit_length]
  rfl

/-- Bracket the flow velocity of `calculatePressureLoss` between two
rational values using the six-decimal bounds on π. -/
theorem velocity_bracket (Q d vlo vhi : ℝ) (hQ : 0 < Q) (hd : 0 < d)
    (h1 : vlo ≤ Q / 3600 / 1000 / (3.141593 * (d / 2) ^ (2 : ℕ)))
    (h2 : Q / 3600 / 1000 / (3.141592 * (d / 2) ^ (2 : ℕ)) ≤ vhi) :
    vlo ≤ Q / 3600 / 1000 / (Real.pi * (d / 2) ^ (2 : ℕ)) ∧
    Q / 3600 / 1000 / (Real.pi * (d / 2) ^ (2 : ℕ)) ≤ vhi ∧
    0 < Q / 3600 / 1000 / (Real.pi * (d / 2) ^ (2 : ℕ)) := by
  have hpil := Real.pi_gt_d6
  have hpih := Real.pi_lt_d6
  have hQ3 : 0 < Q / 3600 / 1000 := by positivity
  have hA : (0:ℝ) < (d / 2) ^ (2 : ℕ) := by positivity
  have hApi : 0 < Real.pi * (d / 2) ^ (2 : ℕ) := by positivity
  refine ⟨?_, ?_, div_pos hQ3 hApi⟩
  · refine h1.trans ?_
    refine (div_le_div_left hQ3 (by positivity) hApi).mpr ?_
    nlinarith only [hpih, hA]
  · refine le_trans ?_ h2
    refine (div_le_div_left hQ3 hApi (by positivity)).mpr ?_
    nlinarith only [hpil, hA]

/-- Upper bound on the Swamee-Jain friction factor from a nonzero
rational lower bound `a` on `Re^0.9` and the check `shi^q·10^p < 1` on
the resulting bound `shi ≥ term1+term2`. -/
theorem calculateFrictionFactor_le (Re d shi : ℝ) (p q : ℕ)
    (hp : 0 < p) (hq : 0 < q) (a : ℝ) (ha : 0 < a)
    (hRe09 : a ≤ Re ^ (0.9 : ℝ))
    (hd : 0 < d)
    (hshi : 0.0000015 / (3.7 * d) + 5.74 / a ≤ shi)
    (hpow : shi ^ (q : ℕ) * 10 ^ (p : ℕ) < 1) :
    calculateFrictionFactor Re d ≤ 0.25 / (((p : ℝ)) / ((q : ℝ))) ^ (2 : ℕ) := by
  rw [calculateFrictionFactor_eval]
  have hRe09pos : 0 < Re ^ (0.9 : ℝ) := lt_of_lt_of_le ha hRe09
  have ht1 : (0:ℝ) < 0.0000015 / (3.7 * d) := by positivity
  have ht2 : (0:ℝ) < 5.74 / Re ^ (0.9 : ℝ) := by positivity
  set s : ℝ := 0.0000015 / (3.7 * d) + 5.74 / Re ^ (0.9 : ℝ) with hsdef
  have hspos : 0 < s := by rw [hsdef]; linarith only [ht1, ht2]
  have hs_le : s ≤ shi := by
    have h2 : (5.74:ℝ) / Re ^ (0.9 : ℝ) ≤ 5.74 / a :=
      (div_le_div_left (by norm_num) hRe09pos ha).mpr hRe09
    rw [hsdef]
    linarith only [h2, hshi]
  have hshi_pos : 0 < shi := lt_of_lt_of_le hspos hs_le
  have hglt : Real.logb 10 s < -((p : ℝ) / (q : ℝ)) := by
    refine logb_lt_neg_div s p q hspos hq ?_
    calc s ^ (q : ℕ) * 10 ^ (p : ℕ) ≤ shi ^ (q : ℕ) * 10 ^ (p : ℕ) := by
          have := pow_le_pow_left hspos.le hs_le q
          have h10 : (0:ℝ) < 10 ^ (p : ℕ) := by positivity
          nlinarith only [this, h10]
      _ < 1 := hpow
  have hpq : (0:ℝ) < (p : ℝ) / (q : ℝ) := by
    apply div_pos <;> exact_mod_cast (by omega : 0 < _)
  have hg2 : ((p : ℝ) / (q : ℝ)) ^ (2:ℕ) < Real.logb 10 s ^ (2:ℕ) := by
    nlinarith only [mul_pos
      (by linarith only [hglt, hpq] : (0:ℝ) < -(Real.logb 10 s + (p : ℝ) / (q : ℝ)))
      (by linarith only [hglt, hpq] : (0:ℝ) < -(Real.logb 10 s - (p : ℝ) / (q : ℝ)))]
  have hgne : Real.logb 10 s ≠ 0 := ne_of_lt (by linarith only [hglt, hpq])
  have hg2pos : (0:ℝ) < Real.logb 10 s ^ (2:ℕ) := pow_two_pos_of_ne_zero hgne
  exact (div_le_div_left (by norm_num) hg2pos (by positivity)).mpr hg2.le

set_option maxHeartbeats 1000000 in
/-- At 16 mm and a tiny flow of 0.3165 L/h the Swamee-Jain argument
lands just above 1, the base-10 log is a tiny positive number, and the
friction factor (and with it the pressure loss) explodes. -/
theorem pressure_16q3165_lower :
    (5900:ℝ) ≤ calculatePressureLoss (oneMetreCircuit 0.016 0.3165) := by
  have hpil := Real.pi_gt_d6
  have hpih := Real.pi_lt_d6
  rw [oneMetre_pressure]
  obtain ⟨hvlo, hvhi, hvpos⟩ := velocity_bracket 0.3165 0.016 0.00043726 0.00043727
    (by norm_num) (by norm_num) (by norm_num) (by norm_num)
  set v : ℝ := (0.3165:ℝ) / 3600 / 1000 / (Real.pi * ((0.016:ℝ) / 2) ^ (2 : ℕ)) with hv
  set Re : ℝ := calculateReynolds v 0.016 with hRe
  have hReval : Re = 998.2 * v * 0.016 / 0.001002 := calculateReynolds_eval v 0.016
  have hRelo : (6.9696:ℝ) ≤ Re := by
    rw [hReval, le_div_iff (by norm_num : (0:ℝ) < 0.001002)]
    nlinarith only [hvlo]
  have hRehi : Re ≤ 6.9698 := by
    rw [hReval, div_le_iff (by norm_num : (0:ℝ) < 0.001002)]
    nlinarith only [hvhi]
  have hRepos : (0:ℝ) < Re := by linarith only [hRelo]
  have hRe09lo : (5.7396:ℝ) ≤ Re ^ (0.9 : ℝ) := by
    refine le_rpow09 Re 5.7396 hRepos.le (by norm_num) ?_
    calc (5.7396:ℝ) ^ (10:ℕ) ≤ (6.9696:ℝ) ^ (9:ℕ) := by norm_num
      _ ≤ Re ^ (9:ℕ) := pow_le_pow_left (by norm_num) hRelo 9
  have hRe09hi : Re ^ (0.9 : ℝ) ≤ 5.7399 := by
    refine rpow09_le Re 5.7399 hRepos.le (by norm_num) ?_
    calc Re ^ (9:ℕ) ≤ (6.9698:ℝ) ^ (9:ℕ) := pow_le_pow_left hRepos.le hRehi 9
      _ ≤ (5.7399:ℝ) ^ (10:ℕ) := by norm_num
  have hRe09pos : (0:ℝ) < Re ^ (0.9 : ℝ) := by linarith only [hRe09lo]
  set sArg : ℝ := 0.0000015 / (3.7 * (0.016:ℝ)) + 5.74 / Re ^ (0.9 : ℝ) with hsArg
  have hslo : (1.00004:ℝ) ≤ sArg := by
    have h2 : (5.74:ℝ) / 5.7399 ≤ 5.74 / Re ^ (0.9 : ℝ) :=
      (div_le_div_left (by norm_num) (by norm_num) hRe09pos).mpr hRe09hi
    have h3 : (1.00004:ℝ) ≤ 0.0000015 / (3.7 * (0.016:ℝ)) + 5.74 / 5.7399 := by norm_num
    rw [hsArg]
    linarith only [h2, h3]
  have hshi : sArg ≤ 1.000096 := by
    have h2 : (5.74:ℝ) / Re ^ (0.9 : ℝ) ≤ 5.74 / 5.7396 :=
      (div_le_div_left (by norm_num) hRe09pos (by norm_num)).mpr hRe09lo
    have h3 : (0.0000015:ℝ) / (3.7 * (0.016:ℝ)) + 5.74 / 5.7396 ≤ 1.000096 := by norm_num
    rw [hsArg]
    linarith only [h2, h3]
  set g : ℝ := Real.logb 10 sArg with hg
  have hgpos : 0 < g := logb_ten_pos_of_one_lt sArg (lt_of_lt_of_le (by norm_num) hslo)
  have hgle : g ≤ 0.000048 := by
    have h1 := logb_ten_le_half_sub_one sArg (le_trans (by norm_num) hslo)
    rw [← hg] at h1
    linarith only [h1, hshi]
  have hg2le : g ^ (2:ℕ) ≤ (0.000048:ℝ) ^ (2:ℕ) := pow_le_pow_left hgpos.le hgle 2
  have hg2pos : (0:ℝ) < g ^ (2:ℕ) := pow_pos hgpos 2
  have hfval : calculateFrictionFactor Re 0.016 = 0.25 / g ^ (2:ℕ) := by
    rw [calculateFrictionFactor_eval, hg, hsArg]
  have hflo : (10:ℝ) ^ (8:ℕ) ≤ 0.25 / g ^ (2:ℕ) := by
    have h1 : (10:ℝ) ^ (8:ℕ) ≤ 0.25 / ((0.000048:ℝ) ^ (2:ℕ)) := by norm_num
    refine h1.trans ?_
    exact (div_le_div_left (by norm_num) (by norm_num) hg2pos).mpr hg2le
  have hv2lo : (0.00043726:ℝ) ^ (2:ℕ) ≤ v ^ (2:ℕ) :=
    pow_le_pow_left (by norm_num) hvlo 2
  rw [hfval]
  calc (5900:ℝ) ≤
      (10:ℝ) ^ (8:ℕ) * (1 / 0.016) * (998.2 * (0.00043726:ℝ) ^ (2:ℕ) / 2) * 0.01 := by
        norm_num
    _ ≤ 0.25 / g ^ (2:ℕ) * (1 / (0.016:ℝ)) * (998.2 * v ^ (2:ℕ) / 2) * 0.01 := by
        gcongr
    _ = 0.25 / g ^ (2:ℕ) * (1 / (0.016:ℝ)) *
          (HYDRAULIC_CONSTANTS.WATER_DENSITY * v ^ (2:ℕ) / 2) * 0.01 := rfl

set_option maxHeartbeats 1000000 in
/-- At 16 mm and 100 L/h the circuit is firmly turbulent and the
pressure loss of a one-metre run stays below 0.31 mbar. -/
theorem pressure_16q100_upper :
    calculatePressureLoss (oneMetreCircuit 0.016 100) ≤ 0.31 := by
  have hpil := Real.pi_gt_d6
  have hpih := Real.pi_lt_d6
  rw [oneMetre_pressure]
  obtain ⟨hvlo, hvhi, hvpos⟩ := velocity_bracket 100 0.016 0.138155 0.138156
    (by norm_num) (by norm_num) (by norm_num) (by norm_num)
  set v : ℝ := (100:ℝ) / 3600 / 1000 / (Real.pi * ((0.016:ℝ) / 2) ^ (2 : ℕ)) with hv
  set Re : ℝ := calculateReynolds v 0.016 with hRe
  have hReval : Re = 998.2 * v * 0.016 / 0.001002 := calculateReynolds_eval v 0.016
  have hRelo : (2202:ℝ) ≤ Re := by
    rw [hReval, le_div_iff (by norm_num : (0:ℝ) < 0.001002)]
    nlinarith only [hvlo]
  have hRepos : (0:ℝ) < Re := by linarith only [hRelo]
  have hRe09lo : (1000:ℝ) ≤ Re ^ (0.9 : ℝ) := by
    refine le_rpow09 Re 1000 hRepos.le (by norm_num) ?_
    calc (1000:ℝ) ^ (10:ℕ) ≤ (2202:ℝ) ^ (9:ℕ) := by norm_num
      _ ≤ Re ^ (9:ℕ) := pow_le_pow_left (by norm_num) hRelo 9
  have hf := calculateFrictionFactor_le Re 0.016 0.0058 11 5
    (by norm_num) (by norm_num) 1000 (by norm_num) hRe09lo (by norm_num)
    (by norm_num) (by norm_num)
  have hf' : calculateFrictionFactor Re 0.016 ≤ 0.0517 := by
    refine hf.trans ?_
    push_cast
    norm_num
  have hf0 : (0:ℝ) ≤ calculateFrictionFactor Re 0.016 := by
    rw [calculateFrictionFactor_eval]
    positivity
  have hv2hi : v ^ (2:ℕ) ≤ (0.138156:ℝ) ^ (2:ℕ) := pow_le_pow_left hvpos.le hvhi 2
  calc calculateFrictionFactor Re 0.016 * (1 / (0.016:ℝ)) *
        (HYDRAULIC_CONSTANTS.WATER_DENSITY * v ^ (2:ℕ) / 2) * 0.01
      = calculateFrictionFactor Re 0.016 * (1 / (0.016:ℝ)) *
          (998.2 * v ^ (2:ℕ) / 2) * 0.01 := rfl
    _ ≤ (0.0517:ℝ) * (1 / (0.016:ℝ)) * (998.2 * (0.138156:ℝ) ^ (2:ℕ) / 2) * 0.01 := by
        gcongr
    _ ≤ 0.31 := by norm_num

set_option maxHeartbeats 1000000 in
/-- At 8 mm and 0.3165 L/h (half the diameter of the near-critical
configuration) the Swamee-Jain argument drops to ≈ 0.54 and the
pressure loss of a one-metre run stays below 0.01 mbar. -/
theorem pressure_8q3165_upper :
    calculatePressureLoss (oneMetreCircuit 0.008 0.3165) ≤ 0.01 := by
  have hpil := Real.pi_gt_d6
  have hpih := Real.pi_lt_d6
  rw [oneMetre_pressure]
  obtain ⟨hvlo, hvhi, hvpos⟩ := velocity_bracket 0.3165 0.008 0.001749046 0.001749047
    (by norm_num) (by norm_num) (by norm_num) (by norm_num)
  set v : ℝ := (0.3165:ℝ) / 3600 / 1000 / (Real.pi * ((0.008:ℝ) / 2) ^ (2 : ℕ)) with hv
  set Re : ℝ := calculateReynolds v 0.008 with hRe
  have hReval : Re = 998.2 * v * 0.008 / 0.001002 := calculateReynolds_eval v 0.008
  have hRelo : (13.939:ℝ) ≤ Re := by
    rw [hReval, le_div_iff (by norm_num : (0:ℝ) < 0.001002)]
    nlinarith only [hvlo]
  have hRepos : (0:ℝ) < Re := by linarith only [hRelo]
  have hRe09lo : (10.6:ℝ) ≤ Re ^ (0.9 : ℝ) := by
    refine le_rpow09 Re 10.6 hRepos.le (by norm_num) ?_
    calc (10.6:ℝ) ^ (10:ℕ) ≤ (13.939:ℝ) ^ (9:ℕ) := by norm_num
      _ ≤ Re ^ (9:ℕ) := pow_le_pow_left (by norm_num) hRelo 9
  have hf := calculateFrictionFactor_le Re 0.008 0.5416 1 4
    (by norm_num) (by norm_num) 10.6 (by norm_num) hRe09lo (by norm_num)
    (by norm_num) (by norm_num)
  have hf' : calculateFrictionFactor Re 0.008 ≤ 4 := by
    refine hf.trans ?_
    push_cast
    norm_num
  have hf0 : (0:ℝ) ≤ calculateFrictionFactor Re 0.008 := by
    rw [calculateFrictionFactor_eval]
    positivity
  have hv2hi : v ^ (2:ℕ) ≤ (0.001749047:ℝ) ^ (2:ℕ) := pow_le_pow_left hvpos.le hvhi 2
  calc calculateFrictionFactor Re 0.008 * (1 / (0.008:ℝ)) *
        (HYDRAULIC_CONSTANTS.WATER_DENSITY * v ^ (2:ℕ) / 2) * 0.01
      = calculateFrictionFactor Re 0.008 * (1 / (0.008:ℝ)) *
          (998.2 * v ^ (2:ℕ) / 2) * 0.01 := rfl
    _ ≤ (4:ℝ) * (1 / (0.008:ℝ)) * (998.2 * (0.001749047:ℝ) ^ (2:ℕ) / 2) * 0.01 := by
        gcongr
    _ ≤ 0.01 := by norm_num

/-- C7 counterexample.  Both universal monotonicity statements fail on
concrete one-segment circuits (one straight metre, all parameters
positive, well inside the claim's quantified domain): raising the flow
from 0.3165 L/h to 100 L/h makes the pressure loss drop from over
5900 mbar to under 0.31 mbar (the tiny flow sits just above the point
where the Swamee-Jain log argument crosses 1), and at the tiny flow
shrinking the diameter from 16 mm to 8 mm also makes it drop. -/
theorem pressure_loss_not_monotone_cex :
    ((0.3165:ℝ) < 100 ∧
      calculatePressureLoss (oneMetreCircuit 0.016 100) <
        calculatePressureLoss (oneMetreCircuit 0.016 0.3165)) ∧
    ((0.008:ℝ) < 0.016 ∧
      calculatePressureLoss (oneMetreCircuit 0.008 0.3165) <
        calculatePressureLoss (oneMetreCircuit 0.016 0.3165)) := by
  have hA := pressure_16q3165_lower
  have hB := pressure_16q100_upper
  have hC := pressure_8q3165_upper
  exact ⟨⟨by norm_num, by linarith⟩, ⟨by norm_num, by linarith⟩⟩

/-- C7 (amended).  With the first-segment diameter, the flow rate and
the Swamee-Jain friction data held fixed (and the friction log-argument
not equal to 1, so the friction factor is positive), the pressure loss
is strictly monotonically increasing in the total circuit length.  The
corresponding universal monotonicity in flow rate and the universal
antitonicity in diameter are false (see the counterexample). -/
theorem pressure_loss_strict_mono_length (c1 c2 : HeatingCircuit)
    (s1 : PipeSegment) (r1 : List PipeSegment)
    (s2 : PipeSegment) (r2 : List PipeSegment)
    (h1 : c1.segments = s1 :: r1) (h2 : c2.segments = s2 :: r2)
    (hd : s1.diameter = s2.diameter) (hq : c1.flow_rate = c2.flow_rate)
    (hdpos : 0 < s1.diameter) (hqpos : 0 < c1.flow_rate)
    (hlog : Real.logb 10 (0.0000015 / (3.7 * s1.diameter) +
      5.74 / (calculateReynolds (c1.flow_rate / 3600 / 1000 /
        (Real.pi * (s1.diameter / 2) ^ (2:ℕ))) s1.diameter) ^ (0.9:ℝ)) ≠ 0)
    (hlen : calculateCircuitLength c1 < calculateCircuitLength c2) :
    calculatePressureLoss c1 < calculatePressureLoss c2 := by
  rw [calculatePressureLoss_cons c1 s1 r1 h1, calculatePressureLoss_cons c2 s2 r2 h2,
    ← hd, ← hq]
  set D : ℝ := s1.diameter with hD
  set v : ℝ := c1.flow_rate / 3600 / 1000 / (Real.pi * (D / 2) ^ (2:ℕ)) with hv
  set Re : ℝ := calculateReynolds v D with hRe
  have hq3 : 0 < c1.flow_rate / 3600 / 1000 :=
    div_pos (div_pos hqpos (by norm_num)) (by norm_num)
  have hApos : 0 < Real.pi * (D / 2) ^ (2:ℕ) :=
    mul_pos Real.pi_pos (pow_pos (div_pos hdpos (by norm_num)) 2)
  have hvpos : 0 < v := div_pos hq3 hApos
  have hfpos : 0 < calculateFrictionFactor Re D := by
    rw [calculateFrictionFactor_eval]
    exact div_pos (by norm_num) (pow_two_pos_of_ne_zero hlog)
  have hKpos : 0 < HYDRAULIC_CONSTANTS.WATER_DENSITY * v ^ (2:ℕ) / 2 := by
    have hv2 : (0:ℝ) < v ^ (2:ℕ) := pow_pos hvpos 2
    show (0:ℝ) < 998.2 * v ^ (2:ℕ) / 2
    linarith only [hv2]
  gcongr

set_option maxHeartbeats 1000000 in
/-- At 16 mm and 100 L/h the Swamee-Jain log argument is far below 1,
so its base-10 logarithm is strictly negative (hence nonzero). -/
theorem logb_sArg_16q100_neg :
    Real.logb 10 (0.0000015 / (3.7 * (0.016:ℝ)) +
      5.74 / (calculateReynolds ((100:ℝ) / 3600 / 1000 /
        (Real.pi * ((0.016:ℝ) / 2) ^ (2:ℕ))) 0.016) ^ (0.9:ℝ)) < 0 := by
  have hpil := Real.pi_gt_d6
  have hpih := Real.pi_lt_d6
  obtain ⟨hvlo, hvhi, hvpos⟩ := velocity_bracket 100 0.016 0.138155 0.138156
    (by norm_num) (by norm_num) (by norm_num) (by norm_num)
  set v : ℝ := (100:ℝ) / 3600 / 1000 / (Real.pi * ((0.016:ℝ) / 2) ^ (2 : ℕ)) with hv
  set Re : ℝ := calculateReynolds v 0.016 with hRe
  have hReval : Re = 998.2 * v * 0.016 / 0.001002 := calculateReynolds_eval v 0.016
  have hRelo : (2202:ℝ) ≤ Re := by
    rw [hReval, le_div_iff (by norm_num : (0:ℝ) < 0.001002)]
    nlinarith only [hvlo]
  have hRepos : (0:ℝ) < Re := by linarith only [hRelo]
  have hRe09lo : (1000:ℝ) ≤ Re ^ (0.9 : ℝ) := by
    refine le_rpow09 Re 1000 hRepos.le (by norm_num) ?_
    calc (1000:ℝ) ^ (10:ℕ) ≤ (2202:ℝ) ^ (9:ℕ) := by norm_num
      _ ≤ Re ^ (9:ℕ) := pow_le_pow_left (by norm_num) hRelo 9
  have hRe09pos : (0:ℝ) < Re ^ (0.9:ℝ) := by linarith only [hRe09lo]
  have hsle : 0.0000015 / (3.7 * (0.016:ℝ)) + 5.74 / Re ^ (0.9:ℝ) < 1 := by
    have h2 : (5.74:ℝ) / Re ^ (0.9:ℝ) ≤ 5.74 / 1000 :=
      (div_le_div_left (by norm_num) hRe09pos (by norm_num)).mpr hRe09lo
    have h3 : (0.0000015:ℝ) / (3.7 * (0.016:ℝ)) + 5.74 / 1000 < 1 := by norm_num
    linarith only [h2, h3]
  have hspos : 0 < 0.0000015 / (3.7 * (0.016:ℝ)) + 5.74 / Re ^ (0.9:ℝ) := by
    have ht1 : (0:ℝ) < 0.0000015 / (3.7 * (0.016:ℝ)) := by norm_num
    have ht2 : (0:ℝ) < 5.74 / Re ^ (0.9:ℝ) := div_pos (by norm_num) hRe09pos
    linarith
  exact Real.logb_neg (by norm_num) hspos hsle

/-- Witness for C7 (amended): two straight metres of 16 mm pipe at
100 L/h lose strictly more pressure than one. -/
theorem pressure_loss_strict_mono_length_witness :
    calculatePressureLoss (oneMetreCircuit 0.016 100) <
      calculatePressureLoss (twoMetreCircuit 0.016 100) := by
  refine pressure_loss_strict_mono_length (oneMetreCircuit 0.016 100)
    (twoMetreCircuit 0.016 100) _ _ _ _ rfl rfl rfl rfl
    (by show (0:ℝ) < 0.016; norm_num) (by show (0:ℝ) < 100; norm_num)
    ?_ (by rw [oneMetreCircuit_length, twoMetreCircuit_length]; norm_num)
  show Real.logb 10 (0.0000015 / (3.7 * (0.016:ℝ)) +
    5.74 / (calculateReynolds ((100:ℝ) / 3600 / 1000 /
      (Real.pi * ((0.016:ℝ) / 2) ^ (2:ℕ))) 0.016) ^ (0.9:ℝ)) ≠ 0
  exact ne_of_lt logb_sArg_16q100_neg

end ThermalCraft
